import Mathlib

/-!
Shallow embedding of the Application → Negotiation → Award pipeline of the
websphere marketplace backend.

Sources embedded:
  * `backend/routes/applications.js` — submit / respond / status / withdraw / award
  * `backend/routes/badges.js` (the chats router) — send message, respond to offer,
    close chat, chat-award, create chat for application
  * `backend/server.js` — presence map (`onlineUsers`) for `user-online`
  * `backend/models/Chat.js` — Chat / Message schemas (message `content` is required)

Modelling conventions:
  * Mongo ObjectIds are `ℕ`; collections are lists of records; `findById` is
    `List.find?` on the id and a `save` of a fetched document is a `List.map`
    that rewrites the documents with that id.
  * JS numbers are `ℚ` (money/rates); date-valued fields are `ℤ` where they are
    compared (deadlines / timelines) and are dropped where they are only
    timestamps (`respondedAt`, `awardedAt`, `priceLockedAt`, `lastActivity`, …).
  * JS truthiness on an optional number (`project?.agreedPrice`,
    `offerDetails?.proposedRate`, …) is "present and non-zero".
  * Each route handler is a total function `St → args → ℕ × St` returning the
    HTTP status code and the post state; every rejected request returns the
    state unchanged, and a code 500 marks a thrown exception (the state at the
    throw point is kept, matching the partially-saved documents).
-/

namespace WebSphere

/-- Participant role, `models/Chat.js` participants.role enum. -/
inductive Role
  | client
  | freelancer
deriving DecidableEq, Repr

/-- Application lifecycle status (spec §3; `routes/applications.js`). -/
inductive AppStatus
  | pending
  | accepted
  | awarded
  | rejected
  | withdrawn
deriving DecidableEq, Repr

/-- Project status (spec §3; values written by the routes). -/
inductive ProjStatus
  | open_
  | awarded
  | in_progress
  | completed
  | cancelled
deriving DecidableEq, Repr

/-- Chat status enum, `models/Chat.js`. -/
inductive ChatStatus
  | active
  | closed
  | archived
deriving DecidableEq, Repr

/-- Message type enum, `models/Chat.js`. -/
inductive MsgType
  | text
  | file
  | system
  | offer
deriving DecidableEq, Repr

/-- Offer status enum, `models/Chat.js`. -/
inductive OfferStatus
  | pending
  | accepted
  | declined
deriving DecidableEq, Repr

/-- `offerDetails` subdocument of a Message (`models/Chat.js`).
`timeline` is stored as text in the schema; it is modelled as an integral
date code since the only spec-level question about it is a comparison with
the project deadline. -/
structure OfferDetails where
  proposedRate : Option ℚ
  timeline : Option ℤ
  description : Option String
deriving DecidableEq, Repr

/-- The slice of a User document used by the routes: the role and the result
of `isFreelancerProfileComplete()` (`models/User.js` line 333). -/
structure UserR where
  id : ℕ
  role : Role
  profileComplete : Bool
deriving DecidableEq, Repr

/-- One `negotiationHistory` entry pushed by respond-to-offer
(`routes/badges.js` lines 1257-1265 and 1292-1300). -/
structure NegotiationEntry where
  offeredBy : ℕ
  offeredByRole : Option Role
  amount : Option ℚ
  timeline : Option ℤ
  entryStatus : OfferStatus
  respondedBy : ℕ
deriving DecidableEq, Repr

/-- Modelled from the spec (§3) and from every read/write the routes perform:
the Project schema itself (`models/Project.js`) is not part of the sources. -/
structure Project where
  id : ℕ
  client : ℕ
  status : ProjStatus
  budgetType : String := "fixed"
  budgetAmount : Option ℚ
  deadline : Option ℤ
  agreedPrice : Option ℚ := none
  finalRate : Option ℚ := none
  finalTimeline : Option ℤ := none
  awardedTo : Option ℕ := none
  awardedApplication : Option ℕ := none
  priceLocked : Bool := false
  serviceChargePercentage : Option ℚ := none
  serviceCharge : Option ℚ := none
  totalProjectValue : Option ℚ := none
  negotiationHistory : List NegotiationEntry := []
deriving DecidableEq, Repr

/-- Modelled from the spec (§3) and the routes' reads/writes
(`models/Application.js` is not part of the sources). -/
structure Application where
  id : ℕ
  project : ℕ
  freelancer : ℕ
  client : ℕ
  status : AppStatus
  coverLetter : String := ""
  proposedRate : Option ℚ
  proposedTimeline : Option ℤ
deriving DecidableEq, Repr

/-- A chat participant (`models/Chat.js`). -/
structure Participant where
  user : ℕ
  role : Role
deriving DecidableEq, Repr

/-- Chat document (`models/Chat.js`). -/
structure Chat where
  id : ℕ
  project : ℕ
  application : ℕ
  participants : List Participant
  status : ChatStatus
  lastMessage : Option ℕ := none
deriving DecidableEq, Repr

/-- Message document (`models/Chat.js`). `content` is a required schema field. -/
structure Message where
  id : ℕ
  chat : ℕ
  sender : ℕ
  content : String
  messageType : MsgType
  offerDetails : Option OfferDetails := none
  offerStatus : Option OfferStatus := none
deriving DecidableEq, Repr

/-- Modelled from the spec (§3/§4.3): Workspace links project, parties and the
awarded application (`models/Workspace.js` is not part of the sources). -/
structure Workspace where
  id : ℕ
  project : ℕ
  client : ℕ
  freelancer : ℕ
  application : ℕ
deriving DecidableEq, Repr

/-- The entity store: one list per collection plus a fresh-id counter. -/
structure St where
  users : List UserR := []
  projects : List Project := []
  applications : List Application := []
  chats : List Chat := []
  messages : List Message := []
  workspaces : List Workspace := []
  nextId : ℕ := 0
deriving DecidableEq, Repr

/-- JS truthiness of an optional number: present and non-zero. -/
def truthyQ : Option ℚ → Bool
  | none => false
  | some x => x ≠ 0

def findUser (s : St) (i : ℕ) : Option UserR :=
  s.users.find? (fun u => u.id == i)

def findProject (s : St) (i : ℕ) : Option Project :=
  s.projects.find? (fun p => p.id == i)

def findApplication (s : St) (i : ℕ) : Option Application :=
  s.applications.find? (fun a => a.id == i)

def findChat (s : St) (i : ℕ) : Option Chat :=
  s.chats.find? (fun c => c.id == i)

def findMessage (s : St) (i : ℕ) : Option Message :=
  s.messages.find? (fun m => m.id == i)

/-- `save` of a fetched project: rewrite the document with this id. -/
def updProject (s : St) (i : ℕ) (f : Project → Project) : St :=
  { s with projects := s.projects.map (fun p => if p.id == i then f p else p) }

def updApplication (s : St) (i : ℕ) (f : Application → Application) : St :=
  { s with applications := s.applications.map (fun a => if a.id == i then f a else a) }

def updChat (s : St) (i : ℕ) (f : Chat → Chat) : St :=
  { s with chats := s.chats.map (fun c => if c.id == i then f c else c) }

def updMessage (s : St) (i : ℕ) (f : Message → Message) : St :=
  { s with messages := s.messages.map (fun m => if m.id == i then f m else m) }

/-- `chat.participants.some(p => p.user.toString() === req.user.userId)`. -/
def isParticipant (c : Chat) (u : ℕ) : Bool :=
  c.participants.any (fun p => p.user == u)

/-- Role of a participant (`chat.participants.find(...)?.role`). -/
def participantRole (c : Chat) (u : ℕ) : Option Role :=
  (c.participants.find? (fun p => p.user == u)).map (·.role)

/-! ## Presence hub (`backend/server.js` lines 469-527)

`onlineUsers` is a JS `Map` keyed by userId; it is modelled as an ordered
association list whose `set` rewrites the entry in place when the key is
present and appends otherwise, exactly the JS `Map` insertion-order
behaviour. -/

/-- One entry of the `onlineUsers` map (the `lastSeen` timestamp is dropped). -/
structure PresEntry where
  userId : ℕ
  socketId : ℕ
deriving DecidableEq, Repr

/-- JS `Map.set` on the association-list model. -/
def mapSet (l : List PresEntry) (u c : ℕ) : List PresEntry :=
  if l.any (fun e => e.userId == u) = true then
    l.map (fun e => if e.userId = u then ⟨u, c⟩ else e)
  else
    l ++ [⟨u, c⟩]

/-- `socket.on('user-online')`, `server.js` lines 477-514: a falsy userId is
ignored; an entry for the same user under a different socket is deleted
(lines 483-488); then `onlineUsers.set(userId, {socketId, ...})`.
A userId of `0` models the JS falsy (`''`/`null`) id. -/
def markOnline (l : List PresEntry) (u c : ℕ) : List PresEntry :=
  if u = 0 then l
  else
    let l1 := l.filter (fun e => ¬ (e.userId = u ∧ e.socketId ≠ c))
    mapSet l1 u c

/-- `socket.on('user-offline')`, `server.js` lines 517-527. -/
def markOffline (l : List PresEntry) (u : ℕ) : List PresEntry :=
  l.filter (fun e => e.userId ≠ u)

/-- The broadcast presence list (`Array.from(onlineUsers.keys())`). -/
def presKeys (l : List PresEntry) : List ℕ :=
  l.map (·.userId)

/-- Lookup of the connection registered for a user. -/
def presLookup (l : List PresEntry) (u : ℕ) : Option ℕ :=
  (l.find? (fun e => e.userId == u)).map (·.socketId)

/-- Fold a sequence of `user-online` registrations. -/
def runOnline (l : List PresEntry) (ops : List (ℕ × ℕ)) : List PresEntry :=
  ops.foldl (fun acc uc => markOnline acc uc.1 uc.2) l

/-! ## Application lifecycle (`backend/routes/applications.js`) -/

/-- `POST /api/applications` (`routes/applications.js` lines 12-173).
Body fields come in as options (`none` models an absent/falsy field). -/
def submitApplication (s : St) (uid : ℕ) (projectId : Option ℕ)
    (coverLetter : String) (proposedRate : Option ℚ) (proposedTimeline : Option ℤ) :
    ℕ × St :=
  match findUser s uid with
  | none => (404, s)                                   -- line 27
  | some freelancer =>
    if freelancer.profileComplete = false then (400, s) -- line 34
    else if projectId = none ∨ coverLetter = "" ∨ truthyQ proposedRate = false ∨
        proposedTimeline = none then (400, s)           -- line 43 (JS truthiness)
    else
      match projectId with
      | none => (400, s)
      | some pid =>
        match findProject s pid with
        | none => (404, s)                              -- line 52
        | some project =>
          if project.status ≠ ProjStatus.open_ then (400, s) -- line 59
          else
            let rate : ℚ := proposedRate.getD 0
            -- lines 66-73: maxAllowedRate = project.budgetAmount * 1.20; an
            -- absent budget gives NaN in JS and the comparison is false
            let capExceeded : Bool := match project.budgetAmount with
              | some b => rate > b * (6 / 5)
              | none => false
            if capExceeded then (400, s)
            else
              -- lines 76-85: timeline vs deadline, only when both present
              let timelineBad : Bool := match project.deadline, proposedTimeline with
                | some d, some t => t > d
                | _, _ => false
              if timelineBad then (400, s)
              else if s.applications.any
                  (fun a => a.project == pid && a.freelancer == uid) then
                (400, s)                                -- lines 88-98
              else if 5 ≤ (s.applications.filter (fun a =>
                  a.freelancer == uid &&
                  (a.status == AppStatus.accepted || a.status == AppStatus.awarded))).length
              then (400, s)                             -- lines 100-112
              else
                -- lines 114-127: create the application (status defaults to pending)
                let app : Application :=
                  { id := s.nextId, project := pid, freelancer := uid,
                    client := project.client, status := .pending,
                    coverLetter := coverLetter, proposedRate := some rate,
                    proposedTimeline := proposedTimeline }
                (201, { s with applications := s.applications ++ [app],
                               nextId := s.nextId + 1 })

/-- `DELETE /api/applications/:applicationId` (`routes/applications.js`
lines 668-713). -/
def withdrawApplication (s : St) (uid aid : ℕ) : ℕ × St :=
  match findApplication s aid with
  | none => (404, s)                                    -- line 674
  | some application =>
    if application.freelancer ≠ uid then (403, s)       -- line 682
    else if application.status ≠ AppStatus.pending then (400, s) -- line 689
    else (200, updApplication s aid (fun a => { a with status := .withdrawn }))

/-- Shared by every award path: reject all sibling applications of the same
project that are still `pending`/`accepted` (`updateMany`,
`routes/applications.js` lines 342-349, 496-503 and 778-785). -/
def rejectSiblings (s : St) (pid aid : ℕ) : St :=
  { s with applications := s.applications.map (fun a =>
      if a.project == pid && a.id != aid &&
         (a.status == AppStatus.pending || a.status == AppStatus.accepted)
      then { a with status := .rejected } else a) }

/-- Shared by every award path: the project-side award write
(`routes/applications.js` lines 327-339, 481-493 and 763-775). -/
def awardProjectDoc (aid freelancerId : ℕ) (appRate : Option ℚ)
    (appTimeline : Option ℤ) (p : Project) : Project :=
  { p with status := .awarded,
           awardedTo := some freelancerId,
           awardedApplication := some aid,
           finalRate := if truthyQ p.agreedPrice then p.agreedPrice else appRate,
           finalTimeline := appTimeline,
           budgetAmount := if truthyQ p.agreedPrice then p.agreedPrice else p.budgetAmount }

/-- `PUT /api/applications/:applicationId/award` (`routes/applications.js`
lines 716-849). -/
def awardApplication (s : St) (uid aid : ℕ) : ℕ × St :=
  match findApplication s aid with
  | none => (404, s)                                    -- line 727
  | some application =>
    if application.client ≠ uid then (403, s)           -- line 735
    else if ¬ (application.status = AppStatus.accepted ∨
               application.status = AppStatus.pending) then (400, s) -- line 743
    else
      match findProject s application.project with
      | none => (500, s)  -- populate('project') gave null: line 751 throws
      | some proj =>
        if proj.status = ProjStatus.awarded ∨ proj.status = ProjStatus.in_progress
        then (400, s)                                   -- line 751
        else
          -- line 759: application.status = 'awarded'
          let s1 := updApplication s aid (fun a => { a with status := .awarded })
          -- lines 763-775
          let s2 := updProject s1 application.project
            (awardProjectDoc aid application.freelancer
              application.proposedRate application.proposedTimeline)
          -- lines 778-785
          let s3 := rejectSiblings s2 application.project aid
          -- lines 788-831: find-or-create the chat, then the award system message
          match s3.chats.find? (fun c => c.application == aid) with
          | some chat =>
            let msg : Message :=
              { id := s3.nextId, chat := chat.id, sender := uid,
                content := "Project awarded", messageType := .system }
            (200, { (updChat s3 chat.id (fun c => { c with lastMessage := some s3.nextId })) with
                      messages := s3.messages ++ [msg], nextId := s3.nextId + 1 })
          | none =>
            let chat : Chat :=
              { id := s3.nextId, project := application.project, application := aid,
                participants := [⟨application.client, .client⟩,
                                 ⟨application.freelancer, .freelancer⟩],
                status := .active, lastMessage := some (s3.nextId + 1) }
            let msg : Message :=
              { id := s3.nextId + 1, chat := chat.id, sender := uid,
                content := "Project awarded", messageType := .system }
            (200, { s3 with chats := s3.chats ++ [chat],
                            messages := s3.messages ++ [msg],
                            nextId := s3.nextId + 2 })

/-- `PUT /api/applications/:applicationId/status` (`routes/applications.js`
lines 430-612). `statusBody` is the raw body string. -/
def updateApplicationStatus (s : St) (uid aid : ℕ) (statusBody : String) : ℕ × St :=
  if ¬ (statusBody = "accepted" ∨ statusBody = "rejected") then (400, s) -- line 438
  else
    match findApplication s aid with
    | none => (404, s)                                  -- line 449
    | some application =>
      match findProject s application.project with
      | none => (500, s)  -- populate('project') gave null: line 457 throws
      | some proj =>
        if proj.client ≠ uid then (403, s)              -- line 457
        else if ¬ (application.status = AppStatus.pending ∨
                   application.status = AppStatus.accepted) then (400, s) -- line 464
        else if statusBody = "accepted" then
          -- lines 472-562: application → awarded, project award write,
          -- sibling rejection, chat + system message, workspace find-or-create
          let s1 := updApplication s aid (fun a => { a with status := .awarded })
          let s2 := updProject s1 application.project
            (awardProjectDoc aid application.freelancer
              application.proposedRate application.proposedTimeline)
          let s3 := rejectSiblings s2 application.project aid
          let s4 :=
            match s3.chats.find? (fun c => c.application == aid) with
            | some chat =>
              let msg : Message :=
                { id := s3.nextId, chat := chat.id, sender := uid,
                  content := "Project awarded", messageType := .system }
              { (updChat s3 chat.id (fun c => { c with lastMessage := some s3.nextId })) with
                  messages := s3.messages ++ [msg], nextId := s3.nextId + 1 }
            | none =>
              let chat : Chat :=
                { id := s3.nextId, project := application.project, application := aid,
                  participants := [⟨proj.client, .client⟩,
                                   ⟨application.freelancer, .freelancer⟩],
                  status := .active, lastMessage := some (s3.nextId + 1) }
              let msg : Message :=
                { id := s3.nextId + 1, chat := chat.id, sender := uid,
                  content := "Project awarded", messageType := .system }
              { s3 with chats := s3.chats ++ [chat],
                        messages := s3.messages ++ [msg],
                        nextId := s3.nextId + 2 }
          -- lines 536-558: workspace find-or-create (failure tolerated)
          let ws : Workspace :=
            { id := s4.nextId, project := application.project,
              client := proj.client, freelancer := application.freelancer,
              application := aid }
          let s5 :=
            if s4.workspaces.any (fun w => w.project == application.project) then s4
            else
              { s4 with workspaces := s4.workspaces ++ [ws],
                        nextId := s4.nextId + 1 }
          (200, s5)
        else
          (200, updApplication s aid (fun a => { a with status := .rejected }))

/-- `PUT /api/applications/:applicationId/respond` (`routes/applications.js`
lines 281-427): the older twin of the `/status` route — same guards and award
writes, chat participants taken from `application.client`, no workspace. -/
def respondToApplication (s : St) (uid aid : ℕ) (action : String) : ℕ × St :=
  if ¬ (action = "accept" ∨ action = "reject") then (400, s) -- line 287
  else
    match findApplication s aid with
    | none => (404, s)                                  -- line 298
    | some application =>
      match findProject s application.project with
      | none => (500, s)  -- populate('project') gave null: line 306 throws
      | some proj =>
        if proj.client ≠ uid then (403, s)              -- line 306
        else if ¬ (application.status = AppStatus.pending ∨
                   application.status = AppStatus.accepted) then (400, s) -- line 313
        else if action = "accept" then
          let s1 := updApplication s aid (fun a => { a with status := .awarded })
          let s2 := updProject s1 application.project
            (awardProjectDoc aid application.freelancer
              application.proposedRate application.proposedTimeline)
          let s3 := rejectSiblings s2 application.project aid
          let s4 :=
            match s3.chats.find? (fun c => c.application == aid) with
            | some chat =>
              let msg : Message :=
                { id := s3.nextId, chat := chat.id, sender := uid,
                  content := "Project awarded", messageType := .system }
              { (updChat s3 chat.id (fun c => { c with lastMessage := some s3.nextId })) with
                  messages := s3.messages ++ [msg], nextId := s3.nextId + 1 }
            | none =>
              let chat : Chat :=
                { id := s3.nextId, project := application.project, application := aid,
                  participants := [⟨application.client, .client⟩,
                                   ⟨application.freelancer, .freelancer⟩],
                  status := .active, lastMessage := some (s3.nextId + 1) }
              let msg : Message :=
                { id := s3.nextId + 1, chat := chat.id, sender := uid,
                  content := "Project awarded", messageType := .system }
              { s3 with chats := s3.chats ++ [chat],
                        messages := s3.messages ++ [msg],
                        nextId := s3.nextId + 2 }
          (200, s4)
        else
          (200, updApplication s aid (fun a => { a with status := .rejected }))

/-! ## Negotiation channel (`backend/routes/badges.js`, the chats router) -/

/-- The price-lock guard of the offer-validation block
(`routes/badges.js` line 801): `project?.agreedPrice` is truthy. -/
def priceLockActive (s : St) (pid : ℕ) : Bool :=
  truthyQ ((findProject s pid).bind (·.agreedPrice))

/-- The freelancer rate-cap guard (`routes/badges.js` lines 813-822):
sender role is freelancer, `project?.budgetAmount` is truthy, and the
proposed rate is strictly above `budgetAmount * 1.20`. -/
def offerCapViolated (s : St) (c : Chat) (u : ℕ) (rate : ℚ) : Bool :=
  participantRole c u == some Role.freelancer &&
  (match (findProject s c.project).bind (·.budgetAmount) with
   | some b => b ≠ 0 && rate > b * (6 / 5)
   | none => false)

/-- Persist a new message and update the chat's `lastMessage`
(`routes/badges.js` lines 827-881). -/
def pushMessage (s : St) (uid cid : ℕ) (content : String) (messageType : MsgType)
    (offerDetails : Option OfferDetails) : St :=
  let msg : Message :=
    { id := s.nextId, chat := cid, sender := uid, content := content,
      messageType := messageType, offerDetails := offerDetails,
      offerStatus := if messageType = MsgType.offer then some .pending else none }
  { (updChat s cid (fun c => { c with lastMessage := some s.nextId })) with
      messages := s.messages ++ [msg], nextId := s.nextId + 1 }

/-- `POST /api/chats/:chatId/messages` (`routes/badges.js` lines 748-907),
which is both SendMessage and SendOffer. The AI-summary side effects and the
socket emit are out of scope; `attachments` are dropped. -/
def sendMessage (s : St) (uid cid : ℕ) (content : String) (messageType : MsgType)
    (offerDetails : Option OfferDetails) : ℕ × St :=
  if content = "" ∧ messageType = MsgType.text then (400, s)   -- line 755
  else if 10000 < content.length then (400, s)                 -- line 762
  else
    match findChat s cid with
    | none => (404, s)                                         -- line 771
    | some chat =>
      if isParticipant chat uid = false then (403, s)          -- line 778
      else if chat.status = ChatStatus.closed then (400, s)    -- line 789
      else
        -- offer-validation block, lines 796-824; entered only when the
        -- message is an offer and `offerDetails?.proposedRate` is truthy
        let offerRate : Option ℚ := offerDetails.bind (·.proposedRate)
        if messageType = MsgType.offer ∧ truthyQ offerRate then
          if priceLockActive s chat.project then (400, s)      -- line 801
          else if offerCapViolated s chat uid (offerRate.getD 0) then (400, s)
          else if content = "" then (500, s) -- message content required (schema)
          else (201, pushMessage s uid cid content messageType offerDetails)
        else if content = "" then (500, s)   -- message content required (schema)
        else (201, pushMessage s uid cid content messageType offerDetails)

/-- `serviceValue || default` (`routes/badges.js` lines 1268-1269). -/
def orDefault (v : Option ℚ) (d : ℚ) : ℚ :=
  match v with
  | some x => if x = 0 then d else x
  | none => d

/-- The application looked up when an offer is accepted
(`routes/badges.js` lines 1219-1225): first application of the chat's project
whose freelancer is one of the chat participants. -/
def findAppForChat (s : St) (c : Chat) : Option Application :=
  s.applications.find? (fun a =>
    a.project == c.project && c.participants.any (fun p => p.user == a.freelancer))

/-- Append a system message without touching the chat document
(`routes/badges.js` lines 1306-1318). -/
def appendSystemMessage (s : St) (cid uid : ℕ) (content : String) : St :=
  let msg : Message :=
    { id := s.nextId, chat := cid, sender := uid,
      content := content, messageType := .system }
  { s with messages := s.messages ++ [msg], nextId := s.nextId + 1 }

/-- The application-document update of the accepted-offer promotion
(`routes/badges.js` lines 1230-1239). -/
def promoteDoc (od : OfferDetails) (a : Application) : Application :=
  { a with proposedRate := od.proposedRate,
           proposedTimeline := od.timeline,
           status := if a.status = AppStatus.pending then .accepted else a.status }

/-- Accepted-offer application promotion (`routes/badges.js` lines 1219-1241):
copy the negotiated rate/timeline onto the matching application and promote
`pending` to `accepted` (never to `awarded`). -/
def promoteApplication (s : St) (chat : Chat) (od : OfferDetails) : St :=
  match findAppForChat s chat with
  | some app => updApplication s app.id (promoteDoc od)
  | none => s

/-- The project-document update of the price lock
(`routes/badges.js` lines 1246-1271). -/
def lockDoc (chat : Chat) (sender uid : ℕ) (od : OfferDetails) (p : Project) : Project :=
  let pct := orDefault p.serviceChargePercentage 5
  let fee := orDefault p.serviceCharge 35
  let entry : NegotiationEntry :=
    { offeredBy := sender,
      offeredByRole := participantRole chat sender,
      amount := od.proposedRate, timeline := od.timeline,
      entryStatus := .accepted, respondedBy := uid }
  { p with agreedPrice := od.proposedRate,
           finalRate := od.proposedRate,
           budgetAmount := od.proposedRate,
           priceLocked := true,
           finalTimeline := od.timeline,
           negotiationHistory := p.negotiationHistory ++ [entry],
           totalProjectValue := od.proposedRate.map
             (fun a => a + max fee (a * pct / 100)) }

/-- Accepted-offer price lock (`routes/badges.js` lines 1244-1273). -/
def lockProjectPrice (s : St) (chat : Chat) (sender uid : ℕ) (od : OfferDetails) : St :=
  match findProject s chat.project with
  | some _ => updProject s chat.project (lockDoc chat sender uid od)
  | none => s

/-- Force-decline every other pending offer of the chat
(`routes/badges.js` lines 1277-1285, the `updateMany`). -/
def declineOtherPending (s : St) (chatId mid : ℕ) : St :=
  { s with messages := s.messages.map (fun (m : Message) =>
      if m.chat == chatId && m.messageType == MsgType.offer &&
         m.offerStatus == some OfferStatus.pending && m.id != mid
      then { m with offerStatus := some .declined } else m) }

/-- Declined-offer negotiation-history entry (`routes/badges.js`
lines 1287-1303). -/
def recordDecline (s : St) (chat : Chat) (sender uid : ℕ) (od : OfferDetails) : St :=
  match findProject s chat.project with
  | some _ => updProject s chat.project (fun p =>
      let entry : NegotiationEntry :=
        { offeredBy := sender,
          offeredByRole := participantRole chat sender,
          amount := od.proposedRate, timeline := od.timeline,
          entryStatus := .declined, respondedBy := uid }
      { p with negotiationHistory := p.negotiationHistory ++ [entry] })
  | none => s

/-- `PUT /api/chats/messages/:messageId/respond-to-offer`
(`routes/badges.js` lines 1146-1352). `action` is the raw body string.

On accept with `offerDetails` present: promote the matching application,
lock the project price, force-decline every other pending offer of the chat,
then append the system response message. On accept with no `offerDetails`,
the handler throws at line 1310 while building the response content — after
the offer status was already saved at line 1209 — so the result is a 500
with the accepted status persisted and nothing else done. -/
def respondToOffer (s : St) (uid mid : ℕ) (action : String) : ℕ × St :=
  if ¬ (action = "accept" ∨ action = "decline") then (400, s)  -- line 1153
  else
    match findMessage s mid with
    | none => (404, s)                                         -- line 1165
    | some message =>
      if message.messageType ≠ MsgType.offer then (400, s)     -- line 1172
      else if message.offerStatus ≠ some OfferStatus.pending then (400, s) -- line 1179
      else
      match findChat s message.chat with
      | none => (500, s)  -- populate('chat') gave null: line 1187 throws
      | some chat =>
        if isParticipant chat uid = false then (403, s)        -- line 1192
        else if message.sender = uid then (400, s)             -- line 1200
        else
          -- line 1208: message.offerStatus saved
          let newStatus : OfferStatus := if action = "accept" then .accepted else .declined
          let s1 := updMessage s mid (fun m => { m with offerStatus := some newStatus })
          if action = "accept" then
            match message.offerDetails with
            | none => (500, s1)  -- line 1310 throws; status already saved
            | some od =>
              (200, appendSystemMessage
                (declineOtherPending
                  (lockProjectPrice (promoteApplication s1 chat od)
                    chat message.sender uid od)
                  chat.id mid)
                chat.id uid "Offer accepted")
          else
            let s2 :=
              match message.offerDetails with
              | some od => recordDecline s1 chat message.sender uid od
              | none => s1
            (200, appendSystemMessage s2 chat.id uid "Offer declined")

/-- `PUT /api/chats/:chatId/close` (`routes/badges.js` lines 910-957). -/
def closeChat (s : St) (uid cid : ℕ) : ℕ × St :=
  match findChat s cid with
  | none => (404, s)                                           -- line 916
  | some chat =>
    match findProject s chat.project with
    | none => (500, s)  -- populate('project') gave null: line 924 throws
    | some proj =>
      if proj.client ≠ uid then (403, s)                       -- line 924
      else
        let s1 := updChat s cid (fun c => { c with status := .closed })
        let msg : Message :=
          { id := s1.nextId, chat := cid, sender := uid,
            content := "Chat has been closed by the client.", messageType := .system }
        (200, { s1 with messages := s1.messages ++ [msg], nextId := s1.nextId + 1 })

/-- `POST /api/chats/:chatId/award` (`routes/badges.js` lines 960-1036):
flips the project to `in_progress` and appends a system message; it never
touches applications or `agreedPrice`. -/
def chatAward (s : St) (uid cid : ℕ) (finalRate : Option ℚ)
    (finalTimeline : Option ℤ) : ℕ × St :=
  match findChat s cid with
  | none => (404, s)                                           -- line 970
  | some chat =>
    match findProject s chat.project with
    | none => (500, s)  -- populate('project') gave null: line 978 throws
    | some proj =>
      if proj.client ≠ uid then (403, s)                       -- line 978
      else if proj.status = ProjStatus.completed then (400, s) -- line 985
      else
        let s1 := updProject s chat.project (fun p => { p with status := .in_progress })
        let msg : Message :=
          { id := s1.nextId, chat := cid, sender := uid,
            content := "Project awarded (chat route)", messageType := .system,
            offerDetails := some { proposedRate := finalRate,
                                   timeline := finalTimeline, description := none } }
        let s2 := updChat s1 cid (fun c => { c with lastMessage := some s1.nextId })
        (200, { s2 with messages := s2.messages ++ [msg], nextId := s2.nextId + 1 })

/-- `POST /api/chats/application/:applicationId` (`routes/badges.js`
lines 1039-1144): find-or-create the 1:1 chat of an application. -/
def createChatForApplication (s : St) (uid aid : ℕ) : ℕ × St :=
  match findApplication s aid with
  | none => (404, s)                                           -- line 1050
  | some application =>
    if ¬ (application.client = uid ∨ application.freelancer = uid) then (403, s) -- line 1061
    else if s.chats.any (fun c => c.application == aid) then (200, s) -- line 1075
    else
      let chat : Chat :=
        { id := s.nextId, project := application.project, application := aid,
          participants := [⟨application.client, .client⟩,
                           ⟨application.freelancer, .freelancer⟩],
          status := .active, lastMessage := some (s.nextId + 1) }
      let msg : Message :=
        { id := s.nextId + 1, chat := chat.id, sender := uid,
          content := "Chat started", messageType := .system }
      (201, { s with chats := s.chats ++ [chat],
                     messages := s.messages ++ [msg], nextId := s.nextId + 2 })

/-! ## The operation alphabet -/

/-- One REST operation of the pipeline, with its request data. -/
inductive Op
  | submit (uid : ℕ) (projectId : Option ℕ) (cover : String)
      (rate : Option ℚ) (timeline : Option ℤ)
  | withdraw (uid aid : ℕ)
  | respond (uid aid : ℕ) (action : String)
  | updateStatus (uid aid : ℕ) (statusBody : String)
  | award (uid aid : ℕ)
  | send (uid cid : ℕ) (content : String) (mt : MsgType) (od : Option OfferDetails)
  | respondOffer (uid mid : ℕ) (action : String)
  | close (uid cid : ℕ)
  | chatAwd (uid cid : ℕ) (finalRate : Option ℚ) (finalTimeline : Option ℤ)
  | createChat (uid aid : ℕ)
deriving DecidableEq, Repr

/-- Dispatch an operation to its route handler. -/
def applyOp (s : St) : Op → ℕ × St
  | .submit u pid cover rate tl => submitApplication s u pid cover rate tl
  | .withdraw u aid => withdrawApplication s u aid
  | .respond u aid act => respondToApplication s u aid act
  | .updateStatus u aid st => updateApplicationStatus s u aid st
  | .award u aid => awardApplication s u aid
  | .send u cid content mt od => sendMessage s u cid content mt od
  | .respondOffer u mid act => respondToOffer s u mid act
  | .close u cid => closeChat s u cid
  | .chatAwd u cid fr ft => chatAward s u cid fr ft
  | .createChat u aid => createChatForApplication s u aid

/-- The post state of an operation. -/
def exec (s : St) (o : Op) : St := (applyOp s o).2

/-- Run a sequence of operations. -/
def run (s : St) (ops : List Op) : St := ops.foldl exec s

/-- The `agreedPrice` of a project document. -/
def projAgreed (s : St) (pid : ℕ) : Option ℚ :=
  (findProject s pid).bind (·.agreedPrice)

/-- Number of messages of a chat that are offers still pending. -/
def pendingOfferCount (s : St) (cid : ℕ) : ℕ :=
  (s.messages.filter (fun x =>
    x.chat == cid && x.messageType == MsgType.offer &&
    x.offerStatus == some OfferStatus.pending)).length

/-- Number of awarded applications of a project. -/
def awardedCount (s : St) (pid : ℕ) : ℕ :=
  s.applications.countP (fun a => a.project == pid && a.status == AppStatus.awarded)

/-! ## Concrete fixtures used by the counterexample theorems -/

/-- One project with two applications from two freelancers, each with its own
chat, and one pending offer in each chat (rates 5000 and 7000); the price is
not locked yet. -/
def twoChatState : St :=
  { projects := [{ id := 1, client := 10, status := .open_, budgetAmount := some 10000,
                   deadline := some 100 }],
    applications := [{ id := 2, project := 1, freelancer := 11, client := 10,
                       status := .pending, proposedRate := some 500,
                       proposedTimeline := some 30 },
                     { id := 3, project := 1, freelancer := 12, client := 10,
                       status := .pending, proposedRate := some 600,
                       proposedTimeline := some 40 }],
    chats := [{ id := 4, project := 1, application := 2,
                participants := [⟨10, .client⟩, ⟨11, .freelancer⟩], status := .active },
              { id := 5, project := 1, application := 3,
                participants := [⟨10, .client⟩, ⟨12, .freelancer⟩], status := .active }],
    messages := [{ id := 6, chat := 4, sender := 11, content := "offer a",
                   messageType := .offer,
                   offerDetails := some ⟨some 5000, some 30, none⟩,
                   offerStatus := some .pending },
                 { id := 7, chat := 5, sender := 12, content := "offer b",
                   messageType := .offer,
                   offerDetails := some ⟨some 7000, some 40, none⟩,
                   offerStatus := some .pending }],
    nextId := 8 }

/-- An open fixed-budget-1000 project and a freelancer with a complete
profile who has not applied anywhere yet. -/
def submitState : St :=
  { users := [{ id := 3, role := .freelancer, profileComplete := true }],
    projects := [{ id := 1, client := 2, status := .open_, budgetAmount := some 1000,
                   deadline := none }],
    nextId := 10 }

/-- A chat that the client has closed. -/
def closedChatState : St :=
  { projects := [{ id := 1, client := 10, status := .open_, budgetAmount := some 1000,
                   deadline := none }],
    chats := [{ id := 4, project := 1, application := 2,
                participants := [⟨10, .client⟩, ⟨11, .freelancer⟩], status := .closed }],
    nextId := 8 }

/-! ## Theorems -/

/-- C1 (counterexample): the claim "once `agreedPrice` is set, no subsequent
RespondToOffer in any Chat of that Project ever overwrites it with a
different value" is false.  In `twoChatState` the client accepts the
5000-rate offer of chat 4, which sets `agreedPrice := 5000`; the 7000-rate
offer of chat 5 of the same project is still pending (the force-decline is
scoped to chat 4 only), so accepting it also succeeds (HTTP 200) and
overwrites `agreedPrice` with 7000. -/
theorem c1_counterexample :
    projAgreed (respondToOffer twoChatState 10 6 "accept").2 1 = some 5000 ∧
    (respondToOffer (respondToOffer twoChatState 10 6 "accept").2 10 7 "accept").1 = 200 ∧
    projAgreed
      (respondToOffer (respondToOffer twoChatState 10 6 "accept").2 10 7 "accept").2 1 =
      some 7000 := by
  refine ⟨by decide, by decide, by decide⟩

/-- C6 (counterexample): a freelancer offer whose timeline (200) exceeds the
project deadline (100) is not rejected: the send succeeds with HTTP 201 and
the offer message is created. -/
theorem c6_counterexample :
    (findProject twoChatState 1).map (·.deadline) = some (some 100) ∧
    (sendMessage twoChatState 11 4 "late offer" .offer
        (some ⟨some 5000, some 200, none⟩)).1 = 201 ∧
    (sendMessage twoChatState 11 4 "late offer" .offer
        (some ⟨some 5000, some 200, none⟩)).2.messages.length =
      twoChatState.messages.length + 1 := by
  have h1 : (10000 : ℚ) * (6 / 5) = 12000 := by norm_num
  refine ⟨by decide, ?_, ?_⟩ <;>
    simp +decide [sendMessage, twoChatState, findChat, priceLockActive, findProject,
      isParticipant, truthyQ, offerCapViolated, participantRole, pushMessage, h1]

/-- C7 (counterexample): on an open fixed-budget-1000 project, a freelancer
Submit with `proposedRate = 1100` is not rejected with HTTP 400: the cap is
`1000 × 1.20 = 1200`, so the submission succeeds with HTTP 201. -/
theorem c7_counterexample :
    (submitApplication submitState 3 (some 1) "cover letter" (some 1100) (some 50)).1
      = 201 ∧
    (submitApplication submitState 3 (some 1) "cover letter" (some 1100) (some 50)).1
      ≠ 400 := by
  have h1 : (1000 : ℚ) * (6 / 5) = 1200 := by norm_num
  constructor <;>
    simp +decide [submitApplication, submitState, findUser, findProject, truthyQ, h1]

/-- C7 (amended): on an open fixed-budget-1000 project, a freelancer Submit
with `proposedRate = 1100` succeeds with HTTP 201 (creating the application),
and a Submit with `proposedRate = 1150` also succeeds with HTTP 201 — both
rates are within the `budget × 1.20 = 1200` cap. -/
theorem c7_amended :
    (submitApplication submitState 3 (some 1) "cover letter" (some 1100) (some 50)).1
      = 201 ∧
    (submitApplication submitState 3 (some 1) "cover letter" (some 1100) (some 50)).2.applications.length = 1 ∧
    (submitApplication submitState 3 (some 1) "cover letter" (some 1150) (some 50)).1
      = 201 := by
  have h1 : (1000 : ℚ) * (6 / 5) = 1200 := by norm_num
  refine ⟨?_, ?_, ?_⟩ <;>
    simp +decide [submitApplication, submitState, findUser, findProject, truthyQ, h1]

/-- `Map.set` never duplicates a key. -/
lemma presKeys_mapSet_nodup (l : List PresEntry) (u c : ℕ)
    (h : (presKeys l).Nodup) : (presKeys (mapSet l u c)).Nodup := by
  unfold mapSet
  by_cases hany : l.any (fun e => e.userId == u) = true
  · have hkeys : presKeys (l.map (fun e => if e.userId = u then (⟨u, c⟩ : PresEntry) else e))
        = presKeys l := by
      unfold presKeys
      rw [List.map_map]
      refine List.map_congr_left ?_
      intro e _
      by_cases he : e.userId = u <;> simp [he]
    rw [if_pos hany, hkeys]
    exact h
  · have hnot : u ∉ presKeys l := by
      intro hmem
      rcases List.mem_map.mp hmem with ⟨e, he, hue⟩
      exact hany (List.any_eq_true.mpr ⟨e, he, by simp [hue]⟩)
    rw [if_neg hany]
    unfold presKeys at *
    simp [List.nodup_append, h, hnot]

/-- `markOnline` preserves key uniqueness. -/
lemma presKeys_markOnline_nodup (l : List PresEntry) (u c : ℕ)
    (h : (presKeys l).Nodup) : (presKeys (markOnline l u c)).Nodup := by
  unfold markOnline
  by_cases hu : u = 0
  · simpa [hu]
  · have hf : (presKeys (l.filter (fun e => ¬ (e.userId = u ∧ e.socketId ≠ c)))).Nodup := by
      unfold presKeys
      exact ((List.filter_sublist l).map _).nodup h
    simp only [hu, if_false]
    exact presKeys_mapSet_nodup _ u c hf

/-- Rewriting the matching entries in place: the first match is the new entry. -/
lemma find?_map_set (t : List PresEntry) (u c : ℕ)
    (h : t.any (fun e => e.userId == u) = true) :
    (t.map (fun e => if e.userId = u then (⟨u, c⟩ : PresEntry) else e)).find?
      (fun e => e.userId == u) = some ⟨u, c⟩ := by
  induction t with
  | nil => simp at h
  | cons e t ih =>
    by_cases he : e.userId = u
    · simp [List.find?_cons, he]
    · have htail : t.any (fun e => e.userId == u) = true := by
        rcases List.any_eq_true.mp h with ⟨x, hx, hux⟩
        rcases List.mem_cons.mp hx with rfl | hxt
        · simp [he] at hux
        · exact List.any_eq_true.mpr ⟨x, hxt, hux⟩
      rw [List.map_cons, if_neg he, List.find?_cons_of_neg _ (by simpa using he)]
      exact ih htail

/-- If no entry matches, `find?` skips the whole prefix. -/
lemma find?_append_singleton (t : List PresEntry) (u c : ℕ)
    (h : ¬ t.any (fun e => e.userId == u) = true) :
    (t ++ [(⟨u, c⟩ : PresEntry)]).find? (fun e => e.userId == u) = some ⟨u, c⟩ := by
  induction t with
  | nil => simp [List.find?_cons]
  | cons e t ih =>
    have he : ¬ e.userId = u := by
      intro hc
      exact h (List.any_eq_true.mpr ⟨e, List.mem_cons_self e t, by simp [hc]⟩)
    have ht : ¬ t.any (fun e => e.userId == u) = true := by
      intro hc
      rcases List.any_eq_true.mp hc with ⟨x, hx, hux⟩
      exact h (List.any_eq_true.mpr ⟨x, List.mem_cons_of_mem e hx, hux⟩)
    rw [List.cons_append, List.find?_cons_of_neg _ (by simpa using he)]
    exact ih ht

/-- After `Map.set` the key maps to the new value. -/
lemma presLookup_mapSet (l : List PresEntry) (u c : ℕ) :
    presLookup (mapSet l u c) u = some c := by
  unfold mapSet presLookup
  by_cases hany : l.any (fun e => e.userId == u) = true
  · rw [if_pos hany, find?_map_set l u c hany]
    rfl
  · rw [if_neg hany, find?_append_singleton l u c hany]
    rfl

/-- C9: every sequence of `user-online` registrations keeps the presence map
free of duplicate userIds (so the broadcast presence list contains each user
at most once), and a registration for a user replaces any prior connection:
immediately afterwards the user's entry holds the new socket
(last-writer-wins). -/
theorem c9_presence_unique_lww :
    (∀ (l : List PresEntry) (ops : List (ℕ × ℕ)), (presKeys l).Nodup →
        (presKeys (runOnline l ops)).Nodup) ∧
    (∀ (l : List PresEntry) (u c : ℕ), u ≠ 0 →
        presLookup (markOnline l u c) u = some c) := by
  constructor
  · intro l ops
    induction ops generalizing l with
    | nil => intro h; simpa [runOnline]
    | cons op t ih =>
      intro h
      have h1 := presKeys_markOnline_nodup l op.1 op.2 h
      simpa [runOnline] using ih _ h1
  · intro l u c hu
    unfold markOnline
    simp only [hu, if_false]
    exact presLookup_mapSet _ u c

/-- C9 witness: the double connection of Scenario D — user 5 registers under
socket 1 and reconnects under socket 2; the presence list holds user 5 once,
and the second registration wins. -/
theorem c9_witness :
    (presKeys (runOnline [] [(5, 1), (5, 2)])).Nodup ∧
    presLookup (markOnline [⟨5, 1⟩] 5 2) 5 = some 2 :=
  ⟨c9_presence_unique_lww.1 [] [(5, 1), (5, 2)] (by decide),
   c9_presence_unique_lww.2 [⟨5, 1⟩] 5 2 (by decide)⟩

/-- C10 (counterexample): a SendMessage call on a closed Chat by a user who
is not a participant is rejected with HTTP 403 (the participant guard fires
before the closed-chat guard), not with HTTP 400 as claimed; no message is
created. -/
theorem c10_counterexample :
    (findChat closedChatState 4).map (·.status) = some ChatStatus.closed ∧
    (sendMessage closedChatState 99 4 "hello" .text none).1 = 403 ∧
    (sendMessage closedChatState 99 4 "hello" .text none).1 ≠ 400 ∧
    (sendMessage closedChatState 99 4 "hello" .text none).2 = closedChatState := by
  refine ⟨by decide, by decide, by decide, by decide⟩

/-- C10 (amended): every SendMessage call (any type, offers included) on a
closed Chat is rejected without any state change — with HTTP 400 when the
sender is a participant of the chat; a non-participant is rejected with
HTTP 403 by the earlier access guard. No Message document is ever created
and the Chat is unchanged. -/
theorem c10_amended (s : St) (uid cid : ℕ) (content : String) (mt : MsgType)
    (od : Option OfferDetails) (c : Chat)
    (hc : findChat s cid = some c) (hcl : c.status = ChatStatus.closed) :
    (sendMessage s uid cid content mt od).2 = s ∧
    ((sendMessage s uid cid content mt od).1 = 400 ∨
     (sendMessage s uid cid content mt od).1 = 403) ∧
    (isParticipant c uid = true → (sendMessage s uid cid content mt od).1 = 400) := by
  unfold sendMessage
  simp only [hc]
  split_ifs with h1 h2 h3 h4 <;> simp_all

/-- The chat document stored in `closedChatState`. -/
def closedChatDoc : Chat :=
  { id := 4, project := 1, application := 2,
    participants := [⟨10, .client⟩, ⟨11, .freelancer⟩],
    status := .closed, lastMessage := none }

/-- C10 witness: a participant's text message to the closed chat of
`closedChatState` is rejected with HTTP 400 and the state is unchanged. -/
theorem c10_witness :
    (sendMessage closedChatState 11 4 "hello" .text none).2 = closedChatState ∧
    ((sendMessage closedChatState 11 4 "hello" .text none).1 = 400 ∨
     (sendMessage closedChatState 11 4 "hello" .text none).1 = 403) ∧
    (isParticipant closedChatDoc 11 = true →
      (sendMessage closedChatState 11 4 "hello" .text none).1 = 400) :=
  c10_amended closedChatState 11 4 "hello" .text none closedChatDoc
    (by decide) (by decide)

set_option maxHeartbeats 1000000 in
/-- C6 (amended): SendOffer performs no timeline validation at all — the HTTP
status of `POST /chats/:chatId/messages` for an offer does not depend on the
offer's timeline (or description): replacing them by any other values leaves
the response code unchanged, so an offer whose timeline exceeds the project
deadline is never rejected for that reason. -/
theorem c6_amended (s : St) (uid cid : ℕ) (content : String) (rate : Option ℚ)
    (d1 d2 : Option String) (t1 t2 : Option ℤ) :
    (sendMessage s uid cid content .offer (some ⟨rate, t1, d1⟩)).1 =
    (sendMessage s uid cid content .offer (some ⟨rate, t2, d2⟩)).1 := by
  unfold sendMessage
  cases hfc : findChat s cid
  · simp only [Option.some_bind]
  · simp only [Option.some_bind]
    split_ifs <;> rfl

/-- The freelancer cap guard fires strictly above `budget × 1.20`. -/
lemma capExceeded_plus_one (s : St) (u : ℕ) (c : Chat) (p : Project) (b : ℚ)
    (hrole : participantRole c u = some Role.freelancer)
    (hp : findProject s c.project = some p)
    (hb : p.budgetAmount = some b) (hbpos : 0 < b) :
    offerCapViolated s c u (b * (6 / 5) + 1) = true := by
  unfold offerCapViolated
  rw [hp, Option.some_bind, hb, hrole]
  simp
  exact fun h => hbpos.ne' h

/-- The freelancer cap guard does not fire at exactly `budget × 1.20`. -/
lemma capExceeded_at_cap (s : St) (u : ℕ) (c : Chat) (p : Project) (b : ℚ)
    (hrole : participantRole c u = some Role.freelancer)
    (hp : findProject s c.project = some p)
    (hb : p.budgetAmount = some b) :
    offerCapViolated s c u (b * (6 / 5)) = false := by
  unfold offerCapViolated
  rw [hp, Option.some_bind, hb, hrole]
  simp

/-- C8: for a freelancer SendOffer on a project with (positive) budget `b`
and no price lock, an offer of exactly `b × 1.20` is accepted — HTTP 201
and the offer message is created — while an offer of `b × 1.20 + 1` is
rejected with HTTP 400 and the state is unchanged. -/
theorem c8_freelancer_offer_cap (s : St) (u cid : ℕ) (content : String)
    (d : Option String) (t : Option ℤ) (c : Chat) (p : Project) (b : ℚ)
    (hc : findChat s cid = some c) (hpart : isParticipant c u = true)
    (hrole : participantRole c u = some Role.freelancer)
    (hopen : c.status ≠ ChatStatus.closed)
    (hp : findProject s c.project = some p)
    (hb : p.budgetAmount = some b) (hbpos : 0 < b)
    (hlock : truthyQ p.agreedPrice = false)
    (hcontent : content ≠ "") (hlen : content.length ≤ 10000) :
    (sendMessage s u cid content .offer (some ⟨some (b * (6 / 5)), t, d⟩)).1 = 201 ∧
    (sendMessage s u cid content .offer
        (some ⟨some (b * (6 / 5)), t, d⟩)).2.messages.length = s.messages.length + 1 ∧
    (sendMessage s u cid content .offer (some ⟨some (b * (6 / 5) + 1), t, d⟩))
      = (400, s) := by
  have hcap1 := capExceeded_at_cap s u c p b hrole hp hb
  have hcap2 := capExceeded_plus_one s u c p b hrole hp hb hbpos
  have hlockP : priceLockActive s c.project = false := by
    unfold priceLockActive
    rw [hp, Option.some_bind]
    exact hlock
  have hr1 : truthyQ (some (b * (6 / 5))) = true := by
    simp only [truthyQ, decide_eq_true_eq]
    positivity
  have hr2 : truthyQ (some (b * (6 / 5) + 1)) = true := by
    simp only [truthyQ, decide_eq_true_eq]
    positivity
  unfold sendMessage
  simp only [hc, Option.some_bind]
  simp [hcontent, hlen, hpart, hopen, hlockP, hr1, hr2, hcap1, hcap2, pushMessage,
        Nat.not_lt.mpr hlen]

/-- The chat document of chat 4 in `twoChatState`. -/
def freelancerChatDoc : Chat :=
  { id := 4, project := 1, application := 2,
    participants := [⟨10, .client⟩, ⟨11, .freelancer⟩],
    status := .active, lastMessage := none }

/-- The project document stored in `twoChatState`. -/
def budgetProjectDoc : Project :=
  { id := 1, client := 10, status := .open_, budgetAmount := some 10000,
    deadline := some 100 }

/-- C8 witness: in `twoChatState` (budget 10000) the freelancer's offer of
`10000 × 1.20` gets HTTP 201 and is stored, and `10000 × 1.20 + 1` gets
HTTP 400 with no state change. -/
theorem c8_witness :
    (sendMessage twoChatState 11 4 "cap offer" .offer
        (some ⟨some ((10000 : ℚ) * (6 / 5)), some 30, none⟩)).1 = 201 ∧
    (sendMessage twoChatState 11 4 "cap offer" .offer
        (some ⟨some ((10000 : ℚ) * (6 / 5)), some 30, none⟩)).2.messages.length =
      twoChatState.messages.length + 1 ∧
    (sendMessage twoChatState 11 4 "cap offer" .offer
        (some ⟨some ((10000 : ℚ) * (6 / 5) + 1), some 30, none⟩)) =
      (400, twoChatState) :=
  c8_freelancer_offer_cap twoChatState 11 4 "cap offer" none (some 30)
    freelancerChatDoc budgetProjectDoc 10000
    (by decide) (by decide) (by decide) (by decide) (by decide) (by decide)
    (by decide) (by decide) (by decide) (by decide)

/-- Promotion of the matching application leaves the messages untouched. -/
lemma promoteApplication_messages (s : St) (c : Chat) (od : OfferDetails) :
    (promoteApplication s c od).messages = s.messages := by
  unfold promoteApplication
  cases findAppForChat s c <;> simp [updApplication]

/-- The price lock leaves the messages untouched. -/
lemma lockProjectPrice_messages (s : St) (c : Chat) (a b : ℕ) (od : OfferDetails) :
    (lockProjectPrice s c a b od).messages = s.messages := by
  unfold lockProjectPrice
  cases findProject s c.project <;> simp [updProject]

/-- After the accepted offer is saved and every other pending offer of the
chat is force-declined, no pending offer of that chat remains — the appended
system message is not an offer, the accepted message is `accepted`, and every
other offer that was pending is now `declined`. -/
lemma pending_zero_of_accept (Y s : St) (cid mid uid : ℕ) (str : String)
    (hY : Y.messages =
      (updMessage s mid (fun m => { m with offerStatus := some OfferStatus.accepted })).messages) :
    pendingOfferCount (appendSystemMessage (declineOtherPending Y cid mid) cid uid str) cid = 0 := by
  unfold pendingOfferCount appendSystemMessage declineOtherPending
  simp only [hY, updMessage, List.map_map, List.filter_append, List.length_append]
  rw [Nat.add_eq_zero]
  constructor
  · rw [List.length_eq_zero, List.filter_eq_nil_iff]
    intro x hx
    rcases List.mem_map.mp hx with ⟨y, hy, rfl⟩
    simp only [Function.comp_apply]
    by_cases hmid : (y.id == mid) = true
    · simp only [hmid, if_true]
      simp
    · rw [Bool.not_eq_true] at hmid
      simp only [hmid, Bool.false_eq_true, if_false]
      by_cases hp : (y.chat == cid && y.messageType == MsgType.offer &&
          y.offerStatus == some OfferStatus.pending) = true
      · simp [hp, bne, hmid]
      · rw [Bool.not_eq_true] at hp
        simp [hp, bne, hmid]
  · simp

/-- C5: whenever a RespondToOffer(accept) on an offer message succeeds
(HTTP 200), the chat of that message is left with zero pending offers:
the accepted offer becomes `accepted` and every other pending offer of the
same chat is force-declined in the same operation. -/
theorem c5_accept_clears_pending (s : St) (uid mid : ℕ) (m : Message) (c : Chat)
    (hm : findMessage s mid = some m) (hc : findChat s m.chat = some c)
    (h200 : (respondToOffer s uid mid "accept").1 = 200) :
    pendingOfferCount (respondToOffer s uid mid "accept").2 c.id = 0 := by
  unfold respondToOffer at h200 ⊢
  simp only [hm, hc] at h200 ⊢
  split_ifs at h200 ⊢ <;> try simp_all
  cases hod : m.offerDetails with
  | none => rw [hod] at h200; simp at h200
  | some od =>
    exact pending_zero_of_accept _ s c.id mid uid "Offer accepted"
      (by rw [lockProjectPrice_messages, promoteApplication_messages])

/-- `find?` over an id-preserving rewrite of a collection. -/
lemma find?_map_of_pred {α : Type} (l : List α) (g : α → α) (p : α → Bool)
    (hg : ∀ x, p (g x) = p x) : (l.map g).find? p = (l.find? p).map g := by
  rw [List.find?_map]
  have : (p ∘ g) = p := funext hg
  rw [this]

/-- Looking a project up after a `save` of one project document. -/
lemma findProject_upd (s : St) (j i : ℕ) (f : Project → Project)
    (hf : ∀ p, (f p).id = p.id) :
    findProject (updProject s i f) j =
      (findProject s j).map (fun p => if p.id == i then f p else p) := by
  unfold findProject updProject
  exact find?_map_of_pred _ _ _ (fun x => by by_cases h : (x.id == i) = true <;> simp [h, hf])

/-- Looking an application up after a `save` of one application document. -/
lemma findApplication_upd (s : St) (j i : ℕ) (f : Application → Application)
    (hf : ∀ a, (f a).id = a.id) :
    findApplication (updApplication s i f) j =
      (findApplication s j).map (fun a => if a.id == i then f a else a) := by
  unfold findApplication updApplication
  exact find?_map_of_pred _ _ _ (fun x => by by_cases h : (x.id == i) = true <;> simp [h, hf])

@[simp] lemma pushMessage_projects (s : St) (u c : ℕ) (ct : String) (mt : MsgType)
    (od : Option OfferDetails) : (pushMessage s u c ct mt od).projects = s.projects := by
  simp [pushMessage, updChat]

@[simp] lemma pushMessage_applications (s : St) (u c : ℕ) (ct : String) (mt : MsgType)
    (od : Option OfferDetails) : (pushMessage s u c ct mt od).applications = s.applications := by
  simp [pushMessage, updChat]

@[simp] lemma pushMessage_users (s : St) (u c : ℕ) (ct : String) (mt : MsgType)
    (od : Option OfferDetails) : (pushMessage s u c ct mt od).users = s.users := by
  simp [pushMessage, updChat]

@[simp] lemma pushMessage_nextId (s : St) (u c : ℕ) (ct : String) (mt : MsgType)
    (od : Option OfferDetails) : (pushMessage s u c ct mt od).nextId = s.nextId + 1 := by
  simp [pushMessage, updChat]

@[simp] lemma pushMessage_messages (s : St) (u c : ℕ) (ct : String) (mt : MsgType)
    (od : Option OfferDetails) :
    (pushMessage s u c ct mt od).messages = s.messages ++
      [{ id := s.nextId, chat := c, sender := u, content := ct, messageType := mt,
         offerDetails := od,
         offerStatus := if mt = MsgType.offer then some .pending else none }] := by
  simp [pushMessage, updChat]

@[simp] lemma updMessage_projects (s : St) (i : ℕ) (f : Message → Message) :
    (updMessage s i f).projects = s.projects := rfl

@[simp] lemma updMessage_applications (s : St) (i : ℕ) (f : Message → Message) :
    (updMessage s i f).applications = s.applications := rfl

@[simp] lemma updMessage_chats (s : St) (i : ℕ) (f : Message → Message) :
    (updMessage s i f).chats = s.chats := rfl

@[simp] lemma updApplication_projects (s : St) (i : ℕ) (f : Application → Application) :
    (updApplication s i f).projects = s.projects := rfl

@[simp] lemma updApplication_chats (s : St) (i : ℕ) (f : Application → Application) :
    (updApplication s i f).chats = s.chats := rfl

@[simp] lemma updProject_applications (s : St) (i : ℕ) (f : Project → Project) :
    (updProject s i f).applications = s.applications := rfl

@[simp] lemma updChat_projects (s : St) (i : ℕ) (f : Chat → Chat) :
    (updChat s i f).projects = s.projects := rfl

@[simp] lemma updChat_applications (s : St) (i : ℕ) (f : Chat → Chat) :
    (updChat s i f).applications = s.applications := rfl

@[simp] lemma updChat_messages (s : St) (i : ℕ) (f : Chat → Chat) :
    (updChat s i f).messages = s.messages := rfl

@[simp] lemma updChat_nextId (s : St) (i : ℕ) (f : Chat → Chat) :
    (updChat s i f).nextId = s.nextId := rfl

@[simp] lemma appendSystemMessage_projects (s : St) (c u : ℕ) (str : String) :
    (appendSystemMessage s c u str).projects = s.projects := rfl

@[simp] lemma appendSystemMessage_applications (s : St) (c u : ℕ) (str : String) :
    (appendSystemMessage s c u str).applications = s.applications := rfl

@[simp] lemma declineOtherPending_projects (s : St) (c m : ℕ) :
    (declineOtherPending s c m).projects = s.projects := rfl

@[simp] lemma declineOtherPending_applications (s : St) (c m : ℕ) :
    (declineOtherPending s c m).applications = s.applications := rfl

/-- Promotion of the matching application leaves the projects untouched. -/
@[simp] lemma promoteApplication_projects (s : St) (c : Chat) (od : OfferDetails) :
    (promoteApplication s c od).projects = s.projects := by
  unfold promoteApplication
  cases findAppForChat s c <;> simp [updApplication]

/-- The price lock leaves the applications untouched. -/
@[simp] lemma lockProjectPrice_applications (s : St) (c : Chat) (a b : ℕ)
    (od : OfferDetails) : (lockProjectPrice s c a b od).applications = s.applications := by
  unfold lockProjectPrice
  cases findProject s c.project <;> simp [updProject]

/-- Looking a chat up after a `save` of one chat document. -/
lemma findChat_upd (s : St) (j i : ℕ) (f : Chat → Chat)
    (hf : ∀ c, (f c).id = c.id) :
    findChat (updChat s i f) j =
      (findChat s j).map (fun c => if c.id == i then f c else c) := by
  unfold findChat updChat
  exact find?_map_of_pred _ _ _ (fun x => by by_cases h : (x.id == i) = true <;> simp [h, hf])

@[simp] lemma pushMessage_chats (s : St) (u c : ℕ) (ct : String) (mt : MsgType)
    (od : Option OfferDetails) :
    (pushMessage s u c ct mt od).chats =
      s.chats.map (fun ch => if ch.id == c then { ch with lastMessage := some s.nextId }
                             else ch) := by
  simp [pushMessage, updChat]

/-- Project lookup only reads the projects collection. -/
lemma findProject_congr (s1 s2 : St) (j : ℕ) (h : s1.projects = s2.projects) :
    findProject s1 j = findProject s2 j := by
  unfold findProject
  rw [h]

/-- Application lookup only reads the applications collection. -/
lemma findApplication_congr (s1 s2 : St) (j : ℕ) (h : s1.applications = s2.applications) :
    findApplication s1 j = findApplication s2 j := by
  unfold findApplication
  rw [h]

/-- The chat-matching application lookup only reads the applications
collection and the chat's project and participants. -/
lemma findAppForChat_congr (s1 s2 : St) (c1 c2 : Chat)
    (h : s1.applications = s2.applications) (hproj : c1.project = c2.project)
    (hpart : c1.participants = c2.participants) :
    findAppForChat s1 c1 = findAppForChat s2 c2 := by
  unfold findAppForChat
  rw [h, hproj, hpart]

/-- `lockDoc` rewrites the document in place (same id). -/
@[simp] lemma lockDoc_id (c : Chat) (a b : ℕ) (od : OfferDetails) (p : Project) :
    (lockDoc c a b od p).id = p.id := rfl

/-- `promoteDoc` rewrites the document in place (same id). -/
@[simp] lemma promoteDoc_id (od : OfferDetails) (a : Application) :
    (promoteDoc od a).id = a.id := rfl

/-- The agreed price of the chat's project right after the price lock. -/
lemma projAgreed_lock (s : St) (c : Chat) (a b : ℕ) (od : OfferDetails) (p : Project)
    (hp : findProject s c.project = some p) :
    projAgreed (lockProjectPrice s c a b od) c.project = od.proposedRate := by
  unfold projAgreed lockProjectPrice
  simp only [hp]
  rw [findProject_upd s c.project c.project (lockDoc c a b od) (lockDoc_id c a b od), hp]
  have hpid : p.id = c.project := by simpa using List.find?_some hp
  simp [hpid, lockDoc]

/-- A SendOffer that passes every guard returns HTTP 201 and stores the
pending offer message. -/
lemma sendMessage_offer_201 (s : St) (u cid : ℕ) (content : String) (od : OfferDetails)
    (c : Chat) (hc : findChat s cid = some c)
    (hpart : isParticipant c u = true) (hopen : c.status ≠ ChatStatus.closed)
    (htr : truthyQ od.proposedRate = true)
    (hlock : priceLockActive s c.project = false)
    (hcap : offerCapViolated s c u (od.proposedRate.getD 0) = false)
    (hcontent : content ≠ "") (hlen : content.length ≤ 10000) :
    sendMessage s u cid content .offer (some od) =
      (201, pushMessage s u cid content .offer (some od)) := by
  unfold sendMessage
  simp only [hc, Option.some_bind]
  simp [hcontent, hlen, hpart, hopen, htr, hlock, hcap, Nat.not_lt.mpr hlen]

/-- A RespondToOffer(accept) that passes every guard returns HTTP 200 and
performs exactly: offer-status save, application promotion, price lock,
force-decline of the chat's other pending offers, system response message. -/
lemma respondAccept_success (s : St) (v mid : ℕ) (m : Message) (c : Chat)
    (od : OfferDetails)
    (hm : findMessage s mid = some m) (hc : findChat s m.chat = some c)
    (hmt : m.messageType = MsgType.offer) (hst : m.offerStatus = some OfferStatus.pending)
    (hpart : isParticipant c v = true) (hsender : m.sender ≠ v)
    (hod : m.offerDetails = some od) :
    respondToOffer s v mid "accept" =
      (200, appendSystemMessage (declineOtherPending (lockProjectPrice
        (promoteApplication
          (updMessage s mid (fun x => { x with offerStatus := some OfferStatus.accepted }))
          c od)
        c m.sender v od) c.id mid) c.id v "Offer accepted") := by
  unfold respondToOffer
  simp only [hm, hc, hod]
  simp [hmt, hst, hpart, hsender]

/-- The first offer message stored in `twoChatState` (chat 4). -/
def offerMsgDoc : Message :=
  { id := 6, chat := 4, sender := 11, content := "offer a", messageType := .offer,
    offerDetails := some ⟨some 5000, some 30, none⟩, offerStatus := some .pending }

/-- C5 witness: accepting offer 6 of chat 4 in `twoChatState` succeeds and
leaves chat 4 with zero pending offers. -/
theorem c5_witness :
    pendingOfferCount (respondToOffer twoChatState 10 6 "accept").2
      freelancerChatDoc.id = 0 :=
  c5_accept_clears_pending twoChatState 10 6 offerMsgDoc freelancerChatDoc
    (by decide) (by decide) (by decide)

/-- The offer message persisted by a successful SendOffer. -/
def newOfferMsg (s : St) (u cid : ℕ) (content : String) (od : OfferDetails) : Message :=
  { id := s.nextId, chat := cid, sender := u, content := content,
    messageType := .offer, offerDetails := some od, offerStatus := some .pending }

/-- The accepted offer's rate is the agreed price after the accept pipeline. -/
lemma projAgreed_after_accept (Y : St) (c2 : Chat) (snd v mid : ℕ) (od : OfferDetails)
    (p : Project) (hp2 : findProject Y c2.project = some p) :
    projAgreed (appendSystemMessage (declineOtherPending
      (lockProjectPrice Y c2 snd v od) c2.id mid) c2.id v "Offer accepted")
      c2.project = od.proposedRate := by
  have h : (appendSystemMessage (declineOtherPending
      (lockProjectPrice Y c2 snd v od) c2.id mid) c2.id v "Offer accepted").projects =
      (lockProjectPrice Y c2 snd v od).projects := by simp
  unfold projAgreed
  rw [findProject_congr _ _ _ h]
  exact projAgreed_lock Y c2 snd v od p hp2

/-- The matching application after the accept pipeline: rate/timeline copied
and `pending` promoted, exactly `promoteDoc`. -/
lemma findApplication_after_accept (S1 : St) (c2 : Chat) (snd v mid : ℕ)
    (od : OfferDetails) (a : Application)
    (ha : findAppForChat S1 c2 = some a) (hfa : findApplication S1 a.id = some a) :
    findApplication (appendSystemMessage (declineOtherPending
      (lockProjectPrice (promoteApplication S1 c2 od) c2 snd v od) c2.id mid)
      c2.id v "Offer accepted") a.id = some (promoteDoc od a) := by
  have h : (appendSystemMessage (declineOtherPending
      (lockProjectPrice (promoteApplication S1 c2 od) c2 snd v od) c2.id mid)
      c2.id v "Offer accepted").applications =
      (promoteApplication S1 c2 od).applications := by simp
  rw [findApplication_congr _ _ _ h]
  unfold promoteApplication
  simp only [ha]
  rw [findApplication_upd S1 a.id a.id (promoteDoc od) (promoteDoc_id od), hfa]
  simp

/-- C4: on a chat whose application is pending (with the price not locked and
the offer within the allowed guards), SendOffer(rate=5000, timeline=T)
followed by RespondToOffer(accept) by the non-sender participant yields:
the send returns 201, the accept returns 200, the project's agreedPrice is
5000, and the matching Application has proposedRate 5000 and status
`accepted` — not `awarded`. -/
theorem c4_round_trip (s : St) (u v cid : ℕ) (content : String) (T : ℤ)
    (d : Option String) (c : Chat) (p : Project) (a : Application)
    (hc : findChat s cid = some c)
    (hpartu : isParticipant c u = true) (hpartv : isParticipant c v = true)
    (hne : u ≠ v) (hopen : c.status ≠ ChatStatus.closed)
    (hp : findProject s c.project = some p)
    (hlock : priceLockActive s c.project = false)
    (hcap : offerCapViolated s c u 5000 = false)
    (ha : findAppForChat s c = some a)
    (hfa : findApplication s a.id = some a)
    (hap : a.status = AppStatus.pending)
    (hcontent : content ≠ "") (hlen : content.length ≤ 10000)
    (hfresh : ∀ x ∈ s.messages, x.id ≠ s.nextId) :
    (sendMessage s u cid content .offer (some ⟨some 5000, some T, d⟩)).1 = 201 ∧
    (respondToOffer (sendMessage s u cid content .offer (some ⟨some 5000, some T, d⟩)).2
        v s.nextId "accept").1 = 200 ∧
    projAgreed (respondToOffer
        (sendMessage s u cid content .offer (some ⟨some 5000, some T, d⟩)).2
        v s.nextId "accept").2 c.project = some 5000 ∧
    ∃ a2, findApplication (respondToOffer
        (sendMessage s u cid content .offer (some ⟨some 5000, some T, d⟩)).2
        v s.nextId "accept").2 a.id = some a2 ∧
      a2.proposedRate = some 5000 ∧ a2.status = AppStatus.accepted ∧
      a2.status ≠ AppStatus.awarded := by
  have htr : truthyQ (OfferDetails.mk (some 5000) (some T) d).proposedRate = true := by
    simp [truthyQ]
  have h1 := sendMessage_offer_201 s u cid content ⟨some 5000, some T, d⟩ c hc hpartu hopen
    htr hlock hcap hcontent hlen
  have e2 : (sendMessage s u cid content .offer (some ⟨some 5000, some T, d⟩)).2 =
      pushMessage s u cid content .offer (some ⟨some 5000, some T, d⟩) := by rw [h1]
  have e1 : (sendMessage s u cid content .offer (some ⟨some 5000, some T, d⟩)).1 = 201 := by
    rw [h1]
  rw [e1, e2]
  have hfm : findMessage (pushMessage s u cid content .offer (some ⟨some 5000, some T, d⟩))
      s.nextId = some (newOfferMsg s u cid content ⟨some 5000, some T, d⟩) := by
    unfold findMessage
    rw [pushMessage_messages, List.find?_append]
    have hpre : s.messages.find? (fun x => x.id == s.nextId) = none :=
      List.find?_eq_none.mpr (fun x hx => by simpa using hfresh x hx)
    simp [hpre, newOfferMsg]
  have hcid : c.id = cid := by simpa using List.find?_some hc
  have hfc2 : findChat (pushMessage s u cid content .offer (some ⟨some 5000, some T, d⟩))
      cid = some { c with lastMessage := some s.nextId } := by
    unfold findChat
    rw [pushMessage_chats]
    rw [find?_map_of_pred _ _ _ (fun x => by by_cases hx : (x.id == cid) = true <;> simp [hx])]
    unfold findChat at hc
    rw [hc]
    simp [hcid]
  have h2 := respondAccept_success
    (pushMessage s u cid content .offer (some ⟨some 5000, some T, d⟩)) v s.nextId
    (newOfferMsg s u cid content ⟨some 5000, some T, d⟩)
    { c with lastMessage := some s.nextId } ⟨some 5000, some T, d⟩
    hfm hfc2 rfl rfl hpartv hne rfl
  rw [h2]
  refine ⟨rfl, rfl, ?_, ?_⟩
  · have hS2 : findProject (promoteApplication
        (updMessage (pushMessage s u cid content .offer (some ⟨some 5000, some T, d⟩))
          s.nextId (fun x => { x with offerStatus := some OfferStatus.accepted }))
        { c with lastMessage := some s.nextId } ⟨some 5000, some T, d⟩)
        c.project = some p := by
      rw [findProject_congr _ s _ (by simp)]
      exact hp
    exact projAgreed_after_accept _ _ _ _ _ _ p hS2
  · refine ⟨promoteDoc ⟨some 5000, some T, d⟩ a, ?_, rfl, ?_, ?_⟩
    · have haS1 : findAppForChat
          (updMessage (pushMessage s u cid content .offer (some ⟨some 5000, some T, d⟩))
            s.nextId (fun x => { x with offerStatus := some OfferStatus.accepted }))
          { c with lastMessage := some s.nextId } = some a := by
        rw [findAppForChat_congr _ s { c with lastMessage := some s.nextId } c (by simp) rfl rfl]
        exact ha
      have hfaS1 : findApplication
          (updMessage (pushMessage s u cid content .offer (some ⟨some 5000, some T, d⟩))
            s.nextId (fun x => { x with offerStatus := some OfferStatus.accepted }))
          a.id = some a := by
        rw [findApplication_congr _ s _ (by simp)]
        exact hfa
      exact findApplication_after_accept _ _ _ _ _ _ _ haS1 hfaS1
    · simp [promoteDoc, hap]
    · simp [promoteDoc, hap]

/-- C3: a second Award call on an already-awarded Application is rejected
with HTTP 400 (the ConflictError of the spec's taxonomy) and the state — all
Application and Project documents — is returned unchanged; likewise Award on
a project already `awarded` is rejected with HTTP 400 unchanged, and the
`/status` award path rejects an already-awarded application the same way. -/
theorem c3_award_conflict (s : St) (uid aid : ℕ) (a : Application)
    (hfa : findApplication s aid = some a) (hclient : a.client = uid) :
    (a.status = AppStatus.awarded → awardApplication s uid aid = (400, s)) ∧
    (∀ p, findProject s a.project = some p → p.status = ProjStatus.awarded →
      awardApplication s uid aid = (400, s)) ∧
    (∀ p, findProject s a.project = some p → p.client = uid →
      a.status = AppStatus.awarded →
      updateApplicationStatus s uid aid "accepted" = (400, s)) := by
  refine ⟨?_, ?_, ?_⟩
  · intro hst
    unfold awardApplication
    simp only [hfa]
    rw [if_neg (by simp [hclient])]
    rw [if_pos (by simp [hst])]
  · intro p hp hpst
    unfold awardApplication
    simp only [hfa]
    rw [if_neg (by simp [hclient])]
    by_cases hst : a.status = AppStatus.accepted ∨ a.status = AppStatus.pending
    · rw [if_neg (by simp [hst])]
      simp only [hp]
      rw [if_pos (Or.inl hpst)]
    · rw [if_pos (by simpa using hst)]
  · intro p hp hpc hst
    unfold updateApplicationStatus
    rw [if_neg (by simp)]
    simp only [hfa, hp]
    rw [if_neg (by simp [hpc])]
    rw [if_pos (by simp [hst])]

/-- A project already awarded to freelancer 11 with its awarded application. -/
def awardedState : St :=
  { projects := [{ id := 1, client := 10, status := .awarded, budgetAmount := some 1000,
                   deadline := none, awardedTo := some 11, awardedApplication := some 2 }],
    applications := [{ id := 2, project := 1, freelancer := 11, client := 10,
                       status := .awarded, proposedRate := some 500,
                       proposedTimeline := none }],
    nextId := 5 }

/-- The awarded application document of `awardedState`. -/
def awardedAppDoc : Application :=
  { id := 2, project := 1, freelancer := 11, client := 10,
    status := .awarded, proposedRate := some 500, proposedTimeline := none }

/-- The awarded project document of `awardedState`. -/
def awardedProjDoc : Project :=
  { id := 1, client := 10, status := .awarded, budgetAmount := some 1000,
    deadline := none, awardedTo := some 11, awardedApplication := some 2 }

/-- C3 witness: re-awarding application 2 of `awardedState` (through either
award route) returns HTTP 400 and leaves the state unchanged. -/
theorem c3_witness :
    awardApplication awardedState 10 2 = (400, awardedState) ∧
    updateApplicationStatus awardedState 10 2 "accepted" = (400, awardedState) :=
  ⟨(c3_award_conflict awardedState 10 2 awardedAppDoc (by decide) (by decide)).1
     (by decide),
   (c3_award_conflict awardedState 10 2 awardedAppDoc (by decide) (by decide)).2.2
     awardedProjDoc (by decide) (by decide) (by decide)⟩

/-- The first (pending) application stored in `twoChatState`. -/
def pendingAppDoc : Application :=
  { id := 2, project := 1, freelancer := 11, client := 10,
    status := .pending, proposedRate := some 500, proposedTimeline := some 30 }

/-- C4 witness: in `twoChatState`, freelancer 11 sends a 5000-rate offer in
chat 4 and client 10 accepts it: HTTP 201 then 200, `agreedPrice = 5000`,
and application 2 is `accepted` with `proposedRate = 5000`. -/
theorem c4_witness :
    (sendMessage twoChatState 11 4 "my offer" .offer
        (some ⟨some 5000, some 30, none⟩)).1 = 201 ∧
    (respondToOffer (sendMessage twoChatState 11 4 "my offer" .offer
        (some ⟨some 5000, some 30, none⟩)).2 10 twoChatState.nextId "accept").1 = 200 ∧
    projAgreed (respondToOffer (sendMessage twoChatState 11 4 "my offer" .offer
        (some ⟨some 5000, some 30, none⟩)).2 10 twoChatState.nextId "accept").2
      freelancerChatDoc.project = some 5000 ∧
    ∃ a2, findApplication (respondToOffer (sendMessage twoChatState 11 4 "my offer" .offer
        (some ⟨some 5000, some 30, none⟩)).2 10 twoChatState.nextId "accept").2
      pendingAppDoc.id = some a2 ∧ a2.proposedRate = some 5000 ∧
      a2.status = AppStatus.accepted ∧ a2.status ≠ AppStatus.awarded :=
  c4_round_trip twoChatState 11 10 4 "my offer" 30 none
    freelancerChatDoc budgetProjectDoc pendingAppDoc
    (by decide) (by decide) (by decide) (by decide) (by decide) (by decide) (by decide)
    (by
      have h1 : ¬ ((5000 : ℚ) > 10000 * (6 / 5)) := by norm_num
      unfold offerCapViolated
      norm_num [participantRole, findProject, twoChatState, freelancerChatDoc, h1])
    (by decide) (by decide) (by decide) (by decide) (by decide) (by decide)
end WebSphere

namespace WebSphere

def Inv (s : St) : Prop :=
  ((s.applications.map Application.id).Nodup) ∧
  (∀ x ∈ s.applications, x.id < s.nextId) ∧
  (∀ pid : ℕ, awardedCount s pid ≤ 1) ∧
  (∀ x ∈ s.applications, x.status = AppStatus.awarded →
      (∀ b ∈ s.applications, b.project = x.project →
        b.status ≠ AppStatus.pending ∧ b.status ≠ AppStatus.accepted) ∧
      (∀ p ∈ s.projects, p.id = x.project → p.status ≠ ProjStatus.open_))

lemma Inv_mono (s s' : St)
    (happ : s'.applications = s.applications)
    (hn : s.nextId ≤ s'.nextId)
    (hpr : ∀ p' ∈ s'.projects, p'.status = ProjStatus.open_ →
      ∃ p ∈ s.projects, p.id = p'.id ∧ p.status = ProjStatus.open_) :
    Inv s → Inv s' := by
  rintro ⟨h1, h2, h3, h4⟩
  refine ⟨by rw [happ]; exact h1, ?_, ?_, ?_⟩
  · intro x hx
    rw [happ] at hx
    exact lt_of_lt_of_le (h2 x hx) hn
  · intro pid
    unfold awardedCount at *
    rw [happ]
    exact h3 pid
  · intro x hx hxa
    rw [happ] at hx
    obtain ⟨hb, hp⟩ := h4 x hx hxa
    refine ⟨by rw [happ]; exact hb, ?_⟩
    intro p' hp' hid
    intro hcon
    obtain ⟨p, hpmem, hpid, hpopen⟩ := hpr p' hp' hcon
    exact hp p hpmem (by rw [hpid, hid]) hpopen

lemma Inv_appmap (s : St) (f : Application → Application)
    (hid : ∀ a, (f a).id = a.id) (hprj : ∀ a, (f a).project = a.project)
    (hawd : ∀ a, (f a).status = AppStatus.awarded → a.status = AppStatus.awarded)
    (hpa : ∀ a, ((f a).status = AppStatus.pending ∨ (f a).status = AppStatus.accepted) →
      (a.status = AppStatus.pending ∨ a.status = AppStatus.accepted)) :
    Inv s → Inv { s with applications := s.applications.map f } := by
  rintro ⟨h1, h2, h3, h4⟩
  refine ⟨?_, ?_, ?_, ?_⟩
  · show ((s.applications.map f).map Application.id).Nodup
    rw [List.map_map, show Application.id ∘ f = Application.id from funext hid]
    exact h1
  · intro x hx
    rcases List.mem_map.mp hx with ⟨y, hy, rfl⟩
    show (f y).id < s.nextId
    rw [hid y]
    exact h2 y hy
  · intro pid
    show (s.applications.map f).countP _ ≤ 1
    rw [List.countP_map]
    refine le_trans (List.countP_mono_left ?_) (h3 pid)
    intro a _ hfa
    simp only [Function.comp_apply, Bool.and_eq_true, beq_iff_eq] at hfa ⊢
    exact ⟨by rw [← hprj a]; exact hfa.1, hawd a hfa.2⟩
  · intro x hx hxa
    rcases List.mem_map.mp hx with ⟨y, hy, rfl⟩
    have hya : y.status = AppStatus.awarded := hawd y hxa
    obtain ⟨hb, hp⟩ := h4 y hy hya
    constructor
    · intro b hb' hbp
      rcases List.mem_map.mp hb' with ⟨z, hz, rfl⟩
      have hzp : z.project = y.project := by
        have := hbp
        rw [hprj z, hprj y] at this
        exact this
      have hzs := hb z hz hzp
      constructor
      · intro hc
        rcases hpa z (Or.inl hc) with h | h
        · exact hzs.1 h
        · exact hzs.2 h
      · intro hc
        rcases hpa z (Or.inr hc) with h | h
        · exact hzs.1 h
        · exact hzs.2 h
    · intro p hpmem hpid
      refine hp p hpmem ?_
      rw [hpid, hprj y]
end WebSphere

namespace WebSphere

lemma Inv_award_core (s : St) (aid : ℕ) (a : Application) (g : Project → Project)
    (hfa : findApplication s aid = some a)
    (hst : a.status = AppStatus.pending ∨ a.status = AppStatus.accepted)
    (hgst : ∀ p, (g p).status = ProjStatus.awarded) :
    Inv s → Inv (rejectSiblings (updProject
      (updApplication s aid (fun x => { x with status := AppStatus.awarded }))
      a.project g) a.project aid) := by
  rintro ⟨h1, h2, h3, h4⟩
  have hamem : a ∈ s.applications := List.mem_of_find?_eq_some hfa
  have haid : a.id = aid := by simpa using List.find?_some hfa
  have huniq : ∀ x ∈ s.applications, x.id = aid → x = a := by
    intro x hx hxid
    exact List.inj_on_of_nodup_map h1 hx hamem (by rw [hxid, haid])
  have hnoaw : ∀ x ∈ s.applications, x.project = a.project →
      x.status ≠ AppStatus.awarded := by
    intro x hx hxp hxa
    obtain ⟨hb, _⟩ := h4 x hx hxa
    rcases hst with h | h
    · exact (hb a hamem hxp.symm).1 h
    · exact (hb a hamem hxp.symm).2 h
  -- the combined per-document transforms
  have happs : (rejectSiblings (updProject
      (updApplication s aid (fun x => { x with status := AppStatus.awarded }))
      a.project g) a.project aid).applications =
      s.applications.map (fun x =>
        (fun y => if y.project == a.project && y.id != aid &&
            (y.status == AppStatus.pending || y.status == AppStatus.accepted)
          then { y with status := AppStatus.rejected } else y)
        (if x.id == aid then { x with status := AppStatus.awarded } else x)) := by
    simp [rejectSiblings, updProject, updApplication, List.map_map]
  have hprojs : (rejectSiblings (updProject
      (updApplication s aid (fun x => { x with status := AppStatus.awarded }))
      a.project g) a.project aid).projects =
      s.projects.map (fun p => if p.id == a.project then g p else p) := by
    simp [rejectSiblings, updProject, updApplication]
  have hnext : (rejectSiblings (updProject
      (updApplication s aid (fun x => { x with status := AppStatus.awarded }))
      a.project g) a.project aid).nextId = s.nextId := by
    simp [rejectSiblings, updProject, updApplication]
  -- the image of each application document
  have himg : ∀ x ∈ s.applications,
      (fun x =>
        (fun y => if y.project == a.project && y.id != aid &&
            (y.status == AppStatus.pending || y.status == AppStatus.accepted)
          then { y with status := AppStatus.rejected } else y)
        (if x.id == aid then { x with status := AppStatus.awarded } else x)) x =
      (if x.id = aid then { a with status := AppStatus.awarded }
       else if x.project = a.project ∧
          (x.status = AppStatus.pending ∨ x.status = AppStatus.accepted)
       then { x with status := AppStatus.rejected } else x) := by
    intro x hx
    by_cases hxid : x.id = aid
    · have hxa : x = a := huniq x hx hxid
      subst hxa
      rw [if_pos hxid]
      simp [hxid, bne]
    · have hA : (x.id == aid) = false := by simp [hxid]
      rw [if_neg hxid]
      simp only [hA, Bool.false_eq_true, if_false]
      by_cases hxm : x.project = a.project ∧
          (x.status = AppStatus.pending ∨ x.status = AppStatus.accepted)
      · have hB : (x.project == a.project && x.id != aid &&
            (x.status == AppStatus.pending || x.status == AppStatus.accepted)) = true := by
          rcases hxm with ⟨hm1, hm2⟩
          rcases hm2 with h | h <;> simp [hm1, bne, hA, h]
        rw [if_pos hxm]
        simp only [hB, if_true]
      · have hB : (x.project == a.project && x.id != aid &&
            (x.status == AppStatus.pending || x.status == AppStatus.accepted)) = false := by
          rcases not_and_or.mp hxm with h | h
          · simp [h]
          · push_neg at h
            simp [h.1, h.2]
        rw [if_neg hxm]
        simp only [hB, Bool.false_eq_true, if_false]
  have hmapeq : s.applications.map (fun x =>
      (fun y => if y.project == a.project && y.id != aid &&
          (y.status == AppStatus.pending || y.status == AppStatus.accepted)
        then { y with status := AppStatus.rejected } else y)
      (if x.id == aid then { x with status := AppStatus.awarded } else x)) =
      s.applications.map (fun x =>
        if x.id = aid then { a with status := AppStatus.awarded }
        else if x.project = a.project ∧
            (x.status = AppStatus.pending ∨ x.status = AppStatus.accepted)
        then { x with status := AppStatus.rejected } else x) :=
    List.map_congr_left himg
  refine ⟨?_, ?_, ?_, ?_⟩
  · show ((rejectSiblings _ _ _).applications.map Application.id).Nodup
    rw [happs, hmapeq, List.map_map]
    rw [List.map_congr_left (l := s.applications) (f := Application.id ∘ _)
      (g := Application.id) ?hg]
    · exact h1
    case hg =>
      intro x hx
      simp only [Function.comp_apply]
      by_cases hxid : x.id = aid
      · simp [hxid, haid]
      · by_cases hxm : x.project = a.project ∧
            (x.status = AppStatus.pending ∨ x.status = AppStatus.accepted) <;>
          simp [hxid, hxm]
  · intro x hx
    rw [happs, hmapeq] at hx
    rcases List.mem_map.mp hx with ⟨y, hy, rfl⟩
    rw [hnext]
    by_cases hyid : y.id = aid
    · rw [if_pos hyid]
      simpa using h2 a hamem
    · by_cases hym : y.project = a.project ∧
          (y.status = AppStatus.pending ∨ y.status = AppStatus.accepted) <;>
        simpa [hyid, hym] using h2 y hy
  · intro pid
    unfold awardedCount
    rw [happs, hmapeq, List.countP_map]
    by_cases hpid : pid = a.project
    · subst hpid
      rw [List.countP_congr (q := fun x => x.id == aid) ?hq]
      · have hcnt : s.applications.countP (fun x => x.id == aid) =
            (s.applications.map Application.id).countP (fun i => i == aid) := by
          rw [List.countP_map]
          rfl
        rw [hcnt]
        have := List.nodup_iff_count_le_one.mp h1 aid
        simpa [List.count] using this
      case hq =>
        intro x hx
        simp only [Function.comp_apply]
        by_cases hxid : x.id = aid
        · simp [hxid, haid]
        · by_cases hxm : x.project = a.project ∧
              (x.status = AppStatus.pending ∨ x.status = AppStatus.accepted)
          · simp [hxid, hxm]
          · simp only [hxid, if_false, hxm]
            constructor
            · intro hcon
              rw [Bool.and_eq_true, beq_iff_eq, beq_iff_eq] at hcon
              exact absurd hcon.2 (hnoaw x hx hcon.1)
            · intro hcon
              simp [hxid] at hcon
    · refine le_trans (List.countP_mono_left ?_) (h3 pid)
      intro x hx hcon
      simp only [Function.comp_apply] at hcon
      by_cases hxid : x.id = aid
      · rw [if_pos hxid] at hcon
        rw [Bool.and_eq_true, beq_iff_eq] at hcon
        exact absurd hcon.1.symm hpid
      · rw [if_neg hxid] at hcon
        by_cases hxm : x.project = a.project ∧
            (x.status = AppStatus.pending ∨ x.status = AppStatus.accepted)
        · rw [if_pos hxm] at hcon
          rw [Bool.and_eq_true, beq_iff_eq] at hcon
          simp at hcon
        · rwa [if_neg hxm] at hcon
  · intro x' hx' hx'a
    rw [happs, hmapeq] at hx'
    rcases List.mem_map.mp hx' with ⟨x, hx, rfl⟩
    constructor
    · intro b' hb' hbp
      rw [happs, hmapeq] at hb'
      rcases List.mem_map.mp hb' with ⟨z, hz, rfl⟩
      by_cases hzid : z.id = aid
      · rw [if_pos hzid]
        simp
      · rw [if_neg hzid]
        by_cases hzm : z.project = a.project ∧
            (z.status = AppStatus.pending ∨ z.status = AppStatus.accepted)
        · rw [if_pos hzm]
          simp
        · rw [if_neg hzm]
          rw [if_neg hzid, if_neg hzm] at hbp
          by_cases hxid : x.id = aid
          · rw [if_pos hxid] at hbp
            have hzpa : z.project = a.project := by simpa using hbp
            constructor
            · intro hc; exact hzm ⟨hzpa, Or.inl hc⟩
            · intro hc; exact hzm ⟨hzpa, Or.inr hc⟩
          · rw [if_neg hxid] at hbp hx'a
            by_cases hxm : x.project = a.project ∧
                (x.status = AppStatus.pending ∨ x.status = AppStatus.accepted)
            · rw [if_pos hxm] at hx'a
              simp at hx'a
            · rw [if_neg hxm] at hbp hx'a
              exact (h4 x hx hx'a).1 z hz hbp
    · intro p' hp' hpid'
      rw [hprojs] at hp'
      rcases List.mem_map.mp hp' with ⟨p, hp, rfl⟩
      by_cases hpa : p.id = a.project
      · rw [if_pos (by simpa using hpa)]
        rw [hgst p]
        simp
      · rw [if_neg (by simpa using hpa)]
        rw [if_neg (by simpa using hpa)] at hpid'
        by_cases hxid : x.id = aid
        · rw [if_pos hxid] at hpid'
          exact absurd (by simpa using hpid') hpa
        · rw [if_neg hxid] at hpid' hx'a
          by_cases hxm : x.project = a.project ∧
              (x.status = AppStatus.pending ∨ x.status = AppStatus.accepted)
          · rw [if_pos hxm] at hx'a
            simp at hx'a
          · rw [if_neg hxm] at hpid' hx'a
            exact (h4 x hx hx'a).2 p hp hpid'
end WebSphere

namespace WebSphere

lemma Inv_append_pending (s : St) (app : Application) (pid : ℕ) (project : Project)
    (hid : app.id = s.nextId) (hstp : app.status = AppStatus.pending)
    (happid : app.project = pid)
    (hproj : findProject s pid = some project) (hopen : project.status = ProjStatus.open_) :
    Inv s → Inv { s with applications := s.applications ++ [app],
                         nextId := s.nextId + 1 } := by
  rintro ⟨h1, h2, h3, h4⟩
  have hpm : project ∈ s.projects := List.mem_of_find?_eq_some hproj
  have hpidq : project.id = pid := by simpa using List.find?_some hproj
  refine ⟨?_, ?_, ?_, ?_⟩
  · show ((s.applications ++ [app]).map Application.id).Nodup
    rw [List.map_append]
    rw [List.nodup_append]
    refine ⟨h1, by simp, ?_⟩
    intro i hi
    rcases List.mem_map.mp hi with ⟨y, hy, rfl⟩
    simp only [List.map_cons, List.map_nil, List.mem_singleton]
    intro hc
    rw [hid] at hc
    have := h2 y hy
    omega
  · intro x hx
    show x.id < s.nextId + 1
    rcases List.mem_append.mp hx with h | h
    · exact lt_trans (h2 x h) (by omega)
    · rw [List.mem_singleton.mp h, hid]
      omega
  · intro pid'
    unfold awardedCount
    show List.countP _ (s.applications ++ [app]) ≤ 1
    rw [List.countP_append]
    have : List.countP (fun a => a.project == pid' && a.status == AppStatus.awarded)
        [app] = 0 := by
      simp [List.countP_cons, hstp]
    rw [this]
    simpa using h3 pid'
  · intro x hx hxa
    rcases List.mem_append.mp hx with hmem | hmem
    · obtain ⟨hb, hp⟩ := h4 x hmem hxa
      have hxpid : x.project ≠ pid := by
        intro hc
        exact hp project hpm (by rw [hpidq, hc]) hopen
      constructor
      · intro b hb' hbp
        rcases List.mem_append.mp hb' with h | h
        · exact hb b h hbp
        · rw [List.mem_singleton.mp h] at hbp ⊢
          exact absurd (happid ▸ hbp) (by rw [happid] at *; exact fun hh => hxpid hh.symm)
      · intro p hp' hpid'
        exact hp p hp' hpid'
    · rw [List.mem_singleton.mp hmem] at hxa
      rw [hstp] at hxa
      exact absurd hxa (by simp)
end WebSphere

namespace WebSphere
lemma Inv_submit (s : St) (u : ℕ) (pj : Option ℕ) (cover : String)
    (rate : Option ℚ) (tl : Option ℤ) (hInv : Inv s) :
    Inv (submitApplication s u pj cover rate tl).2 := by
  unfold submitApplication
  repeat' split
  all_goals try exact hInv
  all_goals simp only []
  all_goals repeat' split
  all_goals try exact hInv
  all_goals
    refine Inv_append_pending s _ _ _ rfl rfl rfl (by assumption)
      (not_not.mp (by assumption)) hInv

end WebSphere

namespace WebSphere

lemma open_preserved_updProject (X : St) (pid : ℕ) (g : Project → Project)
    (hgid : ∀ p, (g p).id = p.id)
    (hgs : ∀ p, (g p).status = ProjStatus.open_ → p.status = ProjStatus.open_) :
    ∀ p' ∈ (updProject X pid g).projects, p'.status = ProjStatus.open_ →
      ∃ p ∈ X.projects, p.id = p'.id ∧ p.status = ProjStatus.open_ := by
  intro p' hp' hop
  rcases List.mem_map.mp hp' with ⟨q, hq, rfl⟩
  by_cases h : (q.id == pid) = true
  · rw [if_pos h] at hop ⊢
    exact ⟨q, hq, (hgid q).symm, hgs q hop⟩
  · rw [if_neg h] at hop ⊢
    exact ⟨q, hq, rfl, hop⟩

lemma Inv_withdraw (s : St) (u aid : ℕ) (hInv : Inv s) :
    Inv (withdrawApplication s u aid).2 := by
  unfold withdrawApplication
  repeat' split
  all_goals try exact hInv
  exact Inv_appmap s
    (fun a => if a.id == aid then { a with status := AppStatus.withdrawn } else a)
    (fun a => by by_cases h : (a.id == aid) = true <;> simp [h])
    (fun a => by by_cases h : (a.id == aid) = true <;> simp [h])
    (fun a => by by_cases h : (a.id == aid) = true <;> simp [h])
    (fun a => by by_cases h : (a.id == aid) = true <;> simp [h]) hInv

lemma Inv_sendMessage (s : St) (u cid : ℕ) (content : String) (mt : MsgType)
    (od : Option OfferDetails) (hInv : Inv s) :
    Inv (sendMessage s u cid content mt od).2 := by
  unfold sendMessage
  repeat' split
  all_goals try exact hInv
  all_goals simp only []
  all_goals repeat' split
  all_goals try exact hInv
  all_goals
    exact Inv_mono s _ rfl (Nat.le_succ _)
      (fun p' hp' hop => ⟨p', hp', rfl, hop⟩) hInv

lemma Inv_closeChat (s : St) (u cid : ℕ) (hInv : Inv s) :
    Inv (closeChat s u cid).2 := by
  unfold closeChat
  repeat' split
  all_goals try exact hInv
  exact Inv_mono s _ rfl (Nat.le_succ _)
    (fun p' hp' hop => ⟨p', hp', rfl, hop⟩) hInv

lemma Inv_chatAward (s : St) (u cid : ℕ) (fr : Option ℚ) (ft : Option ℤ)
    (hInv : Inv s) :
    Inv (chatAward s u cid fr ft).2 := by
  unfold chatAward
  repeat' split
  all_goals try exact hInv
  rename_i cOpt chat heqc pOpt project heqp hcl hcomp
  refine Inv_mono s _ rfl (Nat.le_succ _) ?_ hInv
  intro p' hp' hop
  have hp2 : p' ∈ s.projects.map (fun q =>
      if q.id == chat.project then { q with status := ProjStatus.in_progress }
      else q) := hp'
  rcases List.mem_map.mp hp2 with ⟨q, hq, rfl⟩
  by_cases h : (q.id == chat.project) = true
  · rw [if_pos h] at hop
    simp at hop
  · rw [if_neg h] at hop ⊢
    exact ⟨q, hq, rfl, hop⟩

lemma Inv_createChat (s : St) (u aid : ℕ) (hInv : Inv s) :
    Inv (createChatForApplication s u aid).2 := by
  unfold createChatForApplication
  repeat' split
  all_goals try exact hInv
  exact Inv_mono s _ rfl (Nat.le_add_right _ 2)
    (fun p' hp' hop => ⟨p', hp', rfl, hop⟩) hInv

lemma Inv_appendSystemMessage (s : St) (cid uid : ℕ) (txt : String)
    (h : Inv s) : Inv (appendSystemMessage s cid uid txt) :=
  Inv_mono s _ rfl (Nat.le_succ _)
    (fun p' hp' hop => ⟨p', hp', rfl, hop⟩) h

lemma Inv_declineOtherPending (s : St) (cid mid : ℕ) (h : Inv s) :
    Inv (declineOtherPending s cid mid) :=
  Inv_mono s _ rfl (le_refl _)
    (fun p' hp' hop => ⟨p', hp', rfl, hop⟩) h

lemma Inv_acceptPipeline (s0 : St) (chat : Chat) (snd uid mid : ℕ)
    (od : OfferDetails) (h0 : Inv s0) :
    Inv (appendSystemMessage (declineOtherPending
      (lockProjectPrice (promoteApplication s0 chat od) chat snd uid od)
      chat.id mid) chat.id uid "Offer accepted") := by
  have h2 : Inv (promoteApplication s0 chat od) := by
    unfold promoteApplication
    cases hfa : findAppForChat s0 chat with
    | none => exact h0
    | some app =>
      exact Inv_appmap s0
        (fun a => if a.id == app.id then promoteDoc od a else a)
        (fun a => by by_cases h : (a.id == app.id) = true <;> simp [h, promoteDoc])
        (fun a => by by_cases h : (a.id == app.id) = true <;> simp [h, promoteDoc])
        (fun a => by
          by_cases h : (a.id == app.id) = true <;> simp [h, promoteDoc]
          by_cases h2 : a.status = AppStatus.pending <;> simp [h2])
        (fun a => by
          by_cases h : (a.id == app.id) = true <;> simp [h, promoteDoc]
          by_cases h2 : a.status = AppStatus.pending <;> simp [h2])
        h0
  have h3 : Inv (lockProjectPrice (promoteApplication s0 chat od) chat snd uid od) := by
    unfold lockProjectPrice
    cases hfp : findProject (promoteApplication s0 chat od) chat.project with
    | none => exact h2
    | some p =>
      show Inv (updProject (promoteApplication s0 chat od) chat.project
        (lockDoc chat snd uid od))
      refine Inv_mono (promoteApplication s0 chat od) _ rfl (le_refl _) ?_ h2
      exact open_preserved_updProject (promoteApplication s0 chat od) chat.project
        (lockDoc chat snd uid od) (fun q => rfl) (fun q hq => hq)
  exact Inv_appendSystemMessage _ _ _ _ (Inv_declineOtherPending _ _ _ h3)

lemma Inv_declineTail (s1 : St) (chat : Chat) (snd uid : ℕ)
    (od : OfferDetails) (h : Inv s1) :
    Inv (appendSystemMessage (recordDecline s1 chat snd uid od)
      chat.id uid "Offer declined") := by
  have h2 : Inv (recordDecline s1 chat snd uid od) := by
    unfold recordDecline
    cases hfp : findProject s1 chat.project with
    | none => exact h
    | some p =>
      show Inv (updProject s1 chat.project _)
      refine Inv_mono s1 _ rfl (le_refl _) ?_ h
      exact open_preserved_updProject s1 chat.project _ (fun q => rfl)
        (fun q hq => hq)
  exact Inv_appendSystemMessage _ _ _ _ h2

lemma Inv_respondToOffer (s : St) (u mid : ℕ) (action : String) (hInv : Inv s) :
    Inv (respondToOffer s u mid action).2 := by
  unfold respondToOffer
  repeat' split
  all_goals try exact hInv
  all_goals simp only []
  all_goals repeat' split
  all_goals try exact hInv
  all_goals
    have hInv1 : Inv (updMessage s mid (fun m =>
        { m with offerStatus := some (if action = "accept"
            then OfferStatus.accepted else OfferStatus.declined) })) :=
      Inv_mono s _ rfl (le_refl _)
        (fun p' hp' hop => ⟨p', hp', rfl, hop⟩) hInv
  all_goals first
    | exact hInv1
    | exact Inv_acceptPipeline _ _ _ _ _ _ hInv1
    | exact Inv_declineTail _ _ _ _ _ hInv1
    | exact Inv_appendSystemMessage _ _ _ _ hInv1

lemma Inv_award_core2 (s : St) (aid : ℕ) (a : Application)
    (hfa : findApplication s aid = some a)
    (hst : a.status = AppStatus.pending ∨ a.status = AppStatus.accepted) :
    Inv s → Inv (rejectSiblings (updProject
      (updApplication s aid (fun x => { x with status := AppStatus.awarded }))
      a.project (awardProjectDoc aid a.freelancer a.proposedRate a.proposedTimeline))
      a.project aid) :=
  Inv_award_core s aid a _ hfa hst (fun p => rfl)

lemma Inv_awardApplication (s : St) (uid aid : ℕ) (hInv : Inv s) :
    Inv (awardApplication s uid aid).2 := by
  unfold awardApplication
  repeat' split
  all_goals try exact hInv
  all_goals simp only []
  all_goals repeat' split
  all_goals try exact hInv
  all_goals
    refine Inv_mono _ _ ?_ ?_ ?_
      (Inv_award_core2 s aid _ (by assumption)
        (Or.symm (not_not.mp (by assumption))) hInv)
  all_goals first
    | rfl
    | exact Nat.le_succ _
    | exact Nat.le_add_right _ 2
    | exact fun p' hp' hop => ⟨p', hp', rfl, hop⟩

lemma Inv_updateApplicationStatus (s : St) (uid aid : ℕ) (body : String)
    (hInv : Inv s) : Inv (updateApplicationStatus s uid aid body).2 := by
  unfold updateApplicationStatus
  repeat' split
  all_goals try exact hInv
  all_goals try
    exact Inv_appmap s
      (fun a => if a.id == aid then { a with status := AppStatus.rejected } else a)
      (fun a => by by_cases h : (a.id == aid) = true <;> simp [h])
      (fun a => by by_cases h : (a.id == aid) = true <;> simp [h])
      (fun a => by by_cases h : (a.id == aid) = true <;> simp [h])
      (fun a => by by_cases h : (a.id == aid) = true <;> simp [h]) hInv
  all_goals simp only []
  all_goals repeat' split
  all_goals
    refine Inv_mono _ _ ?_ ?_ ?_
      (Inv_award_core2 s aid _ (by assumption)
        (not_not.mp (by assumption)) hInv)
  all_goals first
    | rfl
    | exact Nat.le_succ _
    | exact Nat.le_add_right _ 2
    | exact Nat.le_add_right _ 3
    | exact fun p' hp' hop => ⟨p', hp', rfl, hop⟩

lemma Inv_respondToApplication (s : St) (uid aid : ℕ) (action : String)
    (hInv : Inv s) : Inv (respondToApplication s uid aid action).2 := by
  unfold respondToApplication
  repeat' split
  all_goals try exact hInv
  all_goals try
    exact Inv_appmap s
      (fun a => if a.id == aid then { a with status := AppStatus.rejected } else a)
      (fun a => by by_cases h : (a.id == aid) = true <;> simp [h])
      (fun a => by by_cases h : (a.id == aid) = true <;> simp [h])
      (fun a => by by_cases h : (a.id == aid) = true <;> simp [h])
      (fun a => by by_cases h : (a.id == aid) = true <;> simp [h]) hInv
  all_goals simp only []
  all_goals repeat' split
  all_goals
    refine Inv_mono _ _ ?_ ?_ ?_
      (Inv_award_core2 s aid _ (by assumption)
        (not_not.mp (by assumption)) hInv)
  all_goals first
    | rfl
    | exact Nat.le_succ _
    | exact Nat.le_add_right _ 2
    | exact fun p' hp' hop => ⟨p', hp', rfl, hop⟩

lemma Inv_exec (s : St) (o : Op) (hInv : Inv s) : Inv (exec s o) := by
  cases o with
  | submit u pid cover rate tl => exact Inv_submit s u pid cover rate tl hInv
  | withdraw u aid => exact Inv_withdraw s u aid hInv
  | respond u aid act => exact Inv_respondToApplication s u aid act hInv
  | updateStatus u aid st => exact Inv_updateApplicationStatus s u aid st hInv
  | award u aid => exact Inv_awardApplication s u aid hInv
  | send u cid content mt od => exact Inv_sendMessage s u cid content mt od hInv
  | respondOffer u mid act => exact Inv_respondToOffer s u mid act hInv
  | close u cid => exact Inv_closeChat s u cid hInv
  | chatAwd u cid fr ft => exact Inv_chatAward s u cid fr ft hInv
  | createChat u aid => exact Inv_createChat s u aid hInv

lemma Inv_run (s : St) (ops : List Op) (hInv : Inv s) : Inv (run s ops) := by
  induction ops generalizing s with
  | nil => exact hInv
  | cons o rest ih => exact ih (exec s o) (Inv_exec s o hInv)

def awardApps (l : List Application) (aid pid : ℕ) : List Application :=
  (l.map (fun a => if a.id == aid then { a with status := AppStatus.awarded } else a)).map
    (fun a => if a.project == pid && a.id != aid &&
        (a.status == AppStatus.pending || a.status == AppStatus.accepted)
      then { a with status := AppStatus.rejected } else a)

def AppsCases (s t : St) : Prop :=
  (∃ f, (∀ a, (f a).id = a.id) ∧ (∀ a, (f a).project = a.project) ∧
      (∀ a, (f a).status = AppStatus.awarded → a.status = AppStatus.awarded) ∧
      t.applications = s.applications.map f) ∨
  (∃ l, t.applications = s.applications ++ l) ∨
  (∃ aid app, findApplication s aid = some app ∧
      (app.status = AppStatus.pending ∨ app.status = AppStatus.accepted) ∧
      t.applications = awardApps s.applications aid app.project)

lemma map_pack_id (s t : St) (h : t.applications = s.applications) :
    AppsCases s t :=
  Or.inl ⟨fun a => a, fun _ => rfl, fun _ => rfl, fun _ h => h,
    by rw [h]; simp⟩

lemma map_pack_upd (s : St) (i : ℕ) (g : Application → Application)
    (hid : ∀ a, (g a).id = a.id) (hprj : ∀ a, (g a).project = a.project)
    (hawd : ∀ a, (g a).status = AppStatus.awarded → a.status = AppStatus.awarded)
    (t : St) (h : t.applications = (updApplication s i g).applications) :
    AppsCases s t :=
  Or.inl ⟨fun a => if a.id == i then g a else a,
    (fun a => by by_cases hc : (a.id == i) = true <;> simp [hc, hid]),
    (fun a => by by_cases hc : (a.id == i) = true <;> simp [hc, hprj]),
    (fun a ha => by
      by_cases hc : (a.id == i) = true
      · simp only [hc, if_true] at ha
        exact hawd a ha
      · simp [hc] at ha
        exact ha),
    h⟩

lemma map_pack_promote (s : St) (i : ℕ) (od : OfferDetails)
    (t : St) (h : t.applications = (updApplication s i (promoteDoc od)).applications) :
    AppsCases s t :=
  map_pack_upd s i (promoteDoc od) (fun a => rfl) (fun a => rfl)
    (fun a ha => by
      by_cases hp : a.status = AppStatus.pending
      · simp [promoteDoc, hp] at ha
      · simpa [promoteDoc, hp] using ha) t h

lemma apps_cases_submit (s : St) (u : ℕ) (pid : Option ℕ) (cover : String)
    (rate : Option ℚ) (tl : Option ℤ) :
    AppsCases s (submitApplication s u pid cover rate tl).2 := by
  unfold submitApplication
  repeat' split
  all_goals try exact map_pack_id s _ rfl
  all_goals simp only []
  all_goals repeat' split
  all_goals first
    | exact map_pack_id s _ rfl
    | exact Or.inr (Or.inl ⟨_, rfl⟩)

lemma apps_cases_withdraw (s : St) (u aid : ℕ) :
    AppsCases s (withdrawApplication s u aid).2 := by
  unfold withdrawApplication
  repeat' split
  all_goals first
    | exact map_pack_id s _ rfl
    | exact map_pack_upd s aid (fun a => { a with status := AppStatus.withdrawn })
        (fun a => rfl) (fun a => rfl) (fun a h => by simp at h) _ rfl

lemma apps_cases_respond (s : St) (u aid : ℕ) (act : String) :
    AppsCases s (respondToApplication s u aid act).2 := by
  unfold respondToApplication
  repeat' split
  all_goals try exact map_pack_id s _ rfl
  all_goals try
    exact map_pack_upd s aid (fun a => { a with status := AppStatus.rejected })
      (fun a => rfl) (fun a => rfl) (fun a h => by simp at h) _ rfl
  all_goals try simp only []
  all_goals repeat' split
  all_goals
    exact Or.inr (Or.inr ⟨_, _, by assumption,
      not_not.mp (by assumption), rfl⟩)

lemma apps_cases_updateStatus (s : St) (u aid : ℕ) (body : String) :
    AppsCases s (updateApplicationStatus s u aid body).2 := by
  unfold updateApplicationStatus
  repeat' split
  all_goals try exact map_pack_id s _ rfl
  all_goals try
    exact map_pack_upd s aid (fun a => { a with status := AppStatus.rejected })
      (fun a => rfl) (fun a => rfl) (fun a h => by simp at h) _ rfl
  all_goals try simp only []
  all_goals repeat' split
  all_goals
    exact Or.inr (Or.inr ⟨_, _, by assumption,
      not_not.mp (by assumption), rfl⟩)

lemma apps_cases_award (s : St) (u aid : ℕ) :
    AppsCases s (awardApplication s u aid).2 := by
  unfold awardApplication
  repeat' split
  all_goals try exact map_pack_id s _ rfl
  all_goals simp only []
  all_goals repeat' split
  all_goals first
    | exact map_pack_id s _ rfl
    | exact Or.inr (Or.inr ⟨_, _, by assumption,
        Or.symm (not_not.mp (by assumption)), rfl⟩)

lemma apps_cases_send (s : St) (u cid : ℕ) (content : String) (mt : MsgType)
    (od : Option OfferDetails) :
    AppsCases s (sendMessage s u cid content mt od).2 := by
  unfold sendMessage
  repeat' split
  all_goals try exact map_pack_id s _ rfl
  all_goals simp only []
  all_goals repeat' split
  all_goals exact map_pack_id s _ rfl

lemma apps_cases_respondOffer (s : St) (u mid : ℕ) (act : String) :
    AppsCases s (respondToOffer s u mid act).2 := by
  unfold respondToOffer promoteApplication lockProjectPrice recordDecline
  repeat' split
  all_goals try exact map_pack_id s _ rfl
  all_goals simp only []
  all_goals repeat' split
  all_goals first
    | exact map_pack_id s _ rfl
    | exact map_pack_promote s _ _ _ rfl

lemma apps_cases_close (s : St) (u cid : ℕ) :
    AppsCases s (closeChat s u cid).2 := by
  unfold closeChat
  repeat' split
  all_goals exact map_pack_id s _ rfl

lemma apps_cases_chatAward (s : St) (u cid : ℕ) (fr : Option ℚ) (ft : Option ℤ) :
    AppsCases s (chatAward s u cid fr ft).2 := by
  unfold chatAward
  repeat' split
  all_goals exact map_pack_id s _ rfl

lemma apps_cases_createChat (s : St) (u aid : ℕ) :
    AppsCases s (createChatForApplication s u aid).2 := by
  unfold createChatForApplication
  repeat' split
  all_goals exact map_pack_id s _ rfl

lemma exec_apps_cases (s : St) (o : Op) : AppsCases s (exec s o) := by
  cases o with
  | submit u pid cover rate tl => exact apps_cases_submit s u pid cover rate tl
  | withdraw u aid => exact apps_cases_withdraw s u aid
  | respond u aid act => exact apps_cases_respond s u aid act
  | updateStatus u aid st => exact apps_cases_updateStatus s u aid st
  | award u aid => exact apps_cases_award s u aid
  | send u cid content mt od => exact apps_cases_send s u cid content mt od
  | respondOffer u mid act => exact apps_cases_respondOffer s u mid act
  | close u cid => exact apps_cases_close s u cid
  | chatAwd u cid fr ft => exact apps_cases_chatAward s u cid fr ft
  | createChat u aid => exact apps_cases_createChat s u aid

lemma find?_id_of_mem (l : List Application)
    (hnd : (l.map Application.id).Nodup) (b : Application) (hb : b ∈ l) :
    l.find? (fun x => x.id == b.id) = some b := by
  induction l with
  | nil => cases hb
  | cons h t ih =>
    rw [List.map_cons, List.nodup_cons] at hnd
    rcases List.mem_cons.mp hb with rfl | hbt
    · rw [List.find?_cons_of_pos _ (by simp)]
    · have hne : (h.id == b.id) = false := by
        refine beq_eq_false_iff_ne.mpr ?_
        intro he
        exact hnd.1 (by rw [he]; exact List.mem_map_of_mem Application.id hbt)
      rw [List.find?_cons_of_neg _ (by simp [hne])]
      exact ih hnd.2 hbt

lemma findApplication_awardApps (s t : St) (aid2 pid : ℕ)
    (happs : t.applications = awardApps s.applications aid2 pid) (j : ℕ) :
    findApplication t j = ((findApplication s j).map
      (fun x => if x.id == aid2 then { x with status := AppStatus.awarded } else x)).map
      (fun x => if x.project == pid && x.id != aid2 &&
          (x.status == AppStatus.pending || x.status == AppStatus.accepted)
        then { x with status := AppStatus.rejected } else x) := by
  show t.applications.find? (fun x => x.id == j) = _
  rw [happs]
  unfold awardApps
  rw [find?_map_of_pred _ _ _ (fun x => by
    by_cases h : (x.project == pid && x.id != aid2 &&
      (x.status == AppStatus.pending || x.status == AppStatus.accepted)) = true <;>
      simp [h])]
  rw [find?_map_of_pred _ _ _ (fun x => by
    by_cases h : (x.id == aid2) = true <;> simp [h])]
  rfl

/-- C2: starting from any state satisfying the system invariant `Inv`, (1) at
every point of any operation sequence every project has at most one awarded
application, and (2) whenever a single operation moves the application `aid`
from a non-awarded status to `awarded`, every sibling application of the same
project that was `pending` or `accepted` is simultaneously moved to
`rejected`. -/
theorem c2_award_unique_and_rejects (s : St) (hInv : Inv s) :
    (∀ ops pid, awardedCount (run s ops) pid ≤ 1) ∧
    (∀ o aid a a', findApplication s aid = some a →
      a.status ≠ AppStatus.awarded →
      findApplication (exec s o) aid = some a' →
      a'.status = AppStatus.awarded →
      ∀ b ∈ s.applications, b.project = a.project → b.id ≠ aid →
        (b.status = AppStatus.pending ∨ b.status = AppStatus.accepted) →
        findApplication (exec s o) b.id =
          some { b with status := AppStatus.rejected }) := by
  constructor
  · intro ops pid
    exact (Inv_run s ops hInv).2.2.1 pid
  · intro o aid a a' hfa hne hfa' ha' b hb hbp hbne hbst
    have hnd : (s.applications.map Application.id).Nodup := hInv.1
    have haid : a.id = aid := by simpa using List.find?_some hfa
    rcases exec_apps_cases s o with ⟨f, hid, hprj, hawd, happs⟩ | ⟨l, happs⟩ |
      ⟨aid2, app, hfa2, hst2, happs⟩
    · exfalso
      have h1 : findApplication (exec s o) aid = (findApplication s aid).map f := by
        show (exec s o).applications.find? (fun x => x.id == aid) = _
        rw [happs]
        exact find?_map_of_pred _ _ _ (fun x => by simp [hid])
      rw [hfa', hfa] at h1
      have h2 : a' = f a := by simpa using h1
      exact hne (hawd a (h2 ▸ ha'))
    · exfalso
      have h1 : findApplication (exec s o) aid = some a := by
        show (exec s o).applications.find? (fun x => x.id == aid) = _
        rw [happs, List.find?_append]
        rw [show s.applications.find? (fun x => x.id == aid) = some a from hfa]
        rfl
      rw [hfa'] at h1
      exact hne ((Option.some.inj h1) ▸ ha')
    · have hfind := findApplication_awardApps s (exec s o) aid2 app.project happs
      have h1 := hfind aid
      rw [hfa', hfa] at h1
      simp only [Option.map_some'] at h1
      by_cases haa : (a.id == aid2) = true
      · -- the route's target application is exactly the one at `aid`
        have haideq : aid2 = aid := by
          have h := beq_iff_eq.mp haa
          rw [← h, haid]
        have happeq : app = a := by
          rw [haideq, hfa] at hfa2
          exact (Option.some.inj hfa2).symm
        have hcond : (b.project == app.project && b.id != aid2 &&
            (b.status == AppStatus.pending || b.status == AppStatus.accepted)) = true := by
          rw [happeq, haideq]
          rcases hbst with h | h <;> simp [hbp, hbne, h]
        have h2 := hfind b.id
        rw [show findApplication s b.id = some b from
          find?_id_of_mem s.applications hnd b hb] at h2
        simp only [Option.map_some'] at h2
        rw [if_neg (show ¬ ((b.id == aid2) = true) by rw [haideq]; simp [hbne])] at h2
        rw [if_pos hcond] at h2
        exact h2
      · exfalso
        rw [if_neg haa] at h1
        by_cases hc : (a.project == app.project && a.id != aid2 &&
            (a.status == AppStatus.pending || a.status == AppStatus.accepted)) = true
        · rw [if_pos hc] at h1
          have h2 := Option.some.inj h1
          rw [h2] at ha'
          simp at ha'
        · rw [if_neg hc] at h1
          exact hne ((Option.some.inj h1) ▸ ha')

/-- Witness for C2: in the two-application fixture, awarding application 2
keeps the awarded count of project 1 at most 1 and rewrites the pending
sibling application 3 to `rejected`. -/
theorem c2_witness :
    awardedCount (run twoChatState [Op.award 10 2]) 1 ≤ 1 ∧
    findApplication (exec twoChatState (Op.award 10 2)) 3 =
      some { id := 3, project := 1, freelancer := 12, client := 10,
             status := AppStatus.rejected, proposedRate := some 600,
             proposedTimeline := some 40 } := by
  have hInv : Inv twoChatState := ⟨by decide, by decide,
    fun pid => by simp [awardedCount, twoChatState], by decide⟩
  have H := c2_award_unique_and_rejects twoChatState hInv
  refine ⟨H.1 [Op.award 10 2] 1, ?_⟩
  exact H.2 (Op.award 10 2) 2
    { id := 2, project := 1, freelancer := 11, client := 10,
      status := AppStatus.pending, proposedRate := some 500, proposedTimeline := some 30 }
    { id := 2, project := 1, freelancer := 11, client := 10,
      status := AppStatus.awarded, proposedRate := some 500, proposedTimeline := some 30 }
    (by decide) (by decide) (by decide) (by decide)
    { id := 3, project := 1, freelancer := 12, client := 10,
      status := AppStatus.pending, proposedRate := some 600, proposedTimeline := some 40 }
    (by decide) (by decide) (by decide) (Or.inl (by decide))

lemma projAgreed_congr (X t : St) (h : t.projects = X.projects) (pid : ℕ) :
    projAgreed t pid = projAgreed X pid := by
  unfold projAgreed findProject
  rw [h]

lemma projAgreed_updProject (X : St) (i : ℕ) (g : Project → Project)
    (hgid : ∀ p, (g p).id = p.id)
    (hgag : ∀ p, (g p).agreedPrice = p.agreedPrice) (pid : ℕ) :
    projAgreed (updProject X i g) pid = projAgreed X pid := by
  unfold projAgreed
  rw [findProject_upd X pid i g hgid]
  cases hf : findProject X pid with
  | none => rfl
  | some p =>
    by_cases h : p.id = i
    · simp [h, hgag]
    · simp [h]

lemma projAgreed_submit (s : St) (u : ℕ) (pj : Option ℕ) (cover : String)
    (rate : Option ℚ) (tl : Option ℤ) (pid : ℕ) :
    projAgreed (submitApplication s u pj cover rate tl).2 pid = projAgreed s pid := by
  unfold submitApplication
  repeat' split
  all_goals try rfl
  all_goals simp only []
  all_goals repeat' split
  all_goals rfl

lemma projAgreed_withdraw (s : St) (u aid pid : ℕ) :
    projAgreed (withdrawApplication s u aid).2 pid = projAgreed s pid := by
  unfold withdrawApplication
  repeat' split
  all_goals rfl

lemma projAgreed_respond (s : St) (u aid : ℕ) (act : String) (pid : ℕ) :
    projAgreed (respondToApplication s u aid act).2 pid = projAgreed s pid := by
  unfold respondToApplication
  repeat' split
  all_goals try rfl
  all_goals simp only []
  all_goals repeat' split
  all_goals
    show projAgreed (updProject (updApplication s aid
        (fun a => { a with status := AppStatus.awarded })) _ _) pid = projAgreed s pid
  all_goals
    refine (projAgreed_updProject _ _ _ ?_ ?_ pid).trans (projAgreed_congr s _ ?_ pid)
  all_goals first | exact fun p => rfl | rfl

lemma projAgreed_updateStatus (s : St) (u aid : ℕ) (body : String) (pid : ℕ) :
    projAgreed (updateApplicationStatus s u aid body).2 pid = projAgreed s pid := by
  unfold updateApplicationStatus
  repeat' split
  all_goals try rfl
  all_goals simp only []
  all_goals repeat' split
  all_goals
    show projAgreed (updProject (updApplication s aid
        (fun a => { a with status := AppStatus.awarded })) _ _) pid = projAgreed s pid
  all_goals
    refine (projAgreed_updProject _ _ _ ?_ ?_ pid).trans (projAgreed_congr s _ ?_ pid)
  all_goals first | exact fun p => rfl | rfl

lemma projAgreed_award_route (s : St) (u aid pid : ℕ) :
    projAgreed (awardApplication s u aid).2 pid = projAgreed s pid := by
  unfold awardApplication
  repeat' split
  all_goals try rfl
  all_goals simp only []
  all_goals repeat' split
  all_goals
    show projAgreed (updProject (updApplication s aid
        (fun a => { a with status := AppStatus.awarded })) _ _) pid = projAgreed s pid
  all_goals
    refine (projAgreed_updProject _ _ _ ?_ ?_ pid).trans (projAgreed_congr s _ ?_ pid)
  all_goals first | exact fun p => rfl | rfl

lemma projAgreed_send (s : St) (u cid : ℕ) (content : String) (mt : MsgType)
    (od : Option OfferDetails) (pid : ℕ) :
    projAgreed (sendMessage s u cid content mt od).2 pid = projAgreed s pid := by
  unfold sendMessage
  repeat' split
  all_goals try rfl
  all_goals simp only []
  all_goals repeat' split
  all_goals rfl

lemma projAgreed_close (s : St) (u cid pid : ℕ) :
    projAgreed (closeChat s u cid).2 pid = projAgreed s pid := by
  unfold closeChat
  repeat' split
  all_goals rfl

lemma projAgreed_chatAward (s : St) (u cid : ℕ) (fr : Option ℚ) (ft : Option ℤ)
    (pid : ℕ) :
    projAgreed (chatAward s u cid fr ft).2 pid = projAgreed s pid := by
  unfold chatAward
  repeat' split
  all_goals try rfl
  all_goals
    show projAgreed (updProject s _
        (fun p => { p with status := ProjStatus.in_progress })) pid = projAgreed s pid
  all_goals
    refine projAgreed_updProject s _ _ ?_ ?_ pid
  all_goals exact fun p => rfl

lemma projAgreed_createChat (s : St) (u aid pid : ℕ) :
    projAgreed (createChatForApplication s u aid).2 pid = projAgreed s pid := by
  unfold createChatForApplication
  repeat' split
  all_goals rfl

lemma respondToOffer_nonpending (s : St) (uid mid : ℕ) (act : String) (m : Message)
    (hm : findMessage s mid = some m) (hmt : m.messageType = MsgType.offer)
    (hst : m.offerStatus ≠ some OfferStatus.pending) :
    respondToOffer s uid mid act = (400, s) := by
  unfold respondToOffer
  split
  · rfl
  · simp only [hm]
    rw [if_neg (by simp [hmt])]
    rw [if_pos hst]

/-- Fixture: project 1 already has `agreedPrice` 5000 locked in; chat 4 of its
accepted application links client 10 and freelancer 11; no messages yet. -/
def lockedChatState : St :=
  { projects := [{ id := 1, client := 10, status := .open_,
                   budgetAmount := some 10000, deadline := some 100,
                   agreedPrice := some 5000, priceLocked := true }],
    applications := [{ id := 2, project := 1, freelancer := 11, client := 10,
                       status := .accepted, proposedRate := some 5000,
                       proposedTimeline := some 30 }],
    chats := [{ id := 4, project := 1, application := 2,
                participants := [⟨10, .client⟩, ⟨11, .freelancer⟩],
                status := .active }],
    nextId := 8 }

/-- The chat document stored in `lockedChatState`. -/
def lockedChatDoc : Chat :=
  { id := 4, project := 1, application := 2,
    participants := [⟨10, .client⟩, ⟨11, .freelancer⟩], status := .active }

/-- Once the price is locked, the offer-validation block rejects every offer
whose `proposedRate` is truthy: the state is unchanged and the message is
never created (`routes/badges.js` lines 796-807). -/
lemma sendOffer_locked_rejected (s : St) (u cid : ℕ) (content : String)
    (od : OfferDetails) (c : Chat) (hc : findChat s cid = some c)
    (htr : truthyQ od.proposedRate = true)
    (hlock : priceLockActive s c.project = true) :
    (sendMessage s u cid content MsgType.offer (some od)).2 = s ∧
    (sendMessage s u cid content MsgType.offer (some od)).1 ≠ 201 := by
  unfold sendMessage
  simp only [hc]
  repeat' split
  all_goals try exact ⟨True.intro, by decide⟩
  all_goals try exact ⟨rfl, by decide⟩
  all_goals simp only []
  all_goals repeat' split
  all_goals try exact ⟨True.intro, by decide⟩
  all_goals try exact ⟨rfl, by decide⟩
  all_goals exfalso
  all_goals simp_all

/-- C1 (amended): once a project's `agreedPrice` is set: (1) every operation
other than RespondToOffer leaves it unchanged; (2) the price lock blocks any
new offer with a truthy `proposedRate` into a chat of that project — the send
leaves the state unchanged and never returns 201; (3) a RespondToOffer on an
offer message whose status is no longer `pending` fails with HTTP 400 and
leaves the state unchanged; (4) a successful RespondToOffer(accept) leaves
the chat of the accepted message with zero pending offers. But the lock can
be bypassed even in the same chat: the guard tests only a truthy
`offerDetails?.proposedRate`, so (5) a zero-rate offer into the locked chat
is still created (HTTP 201), can be accepted (HTTP 200), and the accept
overwrites the locked `agreedPrice` 5000 with 0. The cross-chat overwrite is
the separate counterexample. -/
theorem c1_amended :
    (∀ s o pid, (∀ u mid act, o ≠ Op.respondOffer u mid act) →
      projAgreed (exec s o) pid = projAgreed s pid) ∧
    (∀ s uid cid content od c, findChat s cid = some c →
      truthyQ od.proposedRate = true → priceLockActive s c.project = true →
      (sendMessage s uid cid content MsgType.offer (some od)).2 = s ∧
      (sendMessage s uid cid content MsgType.offer (some od)).1 ≠ 201) ∧
    (∀ s uid mid act m, findMessage s mid = some m →
      m.messageType = MsgType.offer → m.offerStatus ≠ some OfferStatus.pending →
      respondToOffer s uid mid act = (400, s)) ∧
    (∀ s uid mid m c, findMessage s mid = some m → findChat s m.chat = some c →
      (respondToOffer s uid mid "accept").1 = 200 →
      pendingOfferCount (respondToOffer s uid mid "accept").2 c.id = 0) ∧
    (projAgreed lockedChatState 1 = some 5000 ∧
     (sendMessage lockedChatState 11 4 "zero offer" MsgType.offer
        (some ⟨some 0, none, none⟩)).1 = 201 ∧
     (respondToOffer (sendMessage lockedChatState 11 4 "zero offer" MsgType.offer
        (some ⟨some 0, none, none⟩)).2 10 8 "accept").1 = 200 ∧
     projAgreed (respondToOffer (sendMessage lockedChatState 11 4 "zero offer"
        MsgType.offer (some ⟨some 0, none, none⟩)).2 10 8 "accept").2 1 = some 0) := by
  refine ⟨?_, ?_, ?_, ?_, by decide, by decide, by decide, by decide⟩
  · intro s o pid hno
    cases o with
    | submit u pj cover rate tl => exact projAgreed_submit s u pj cover rate tl pid
    | withdraw u aid => exact projAgreed_withdraw s u aid pid
    | respond u aid act => exact projAgreed_respond s u aid act pid
    | updateStatus u aid st => exact projAgreed_updateStatus s u aid st pid
    | award u aid => exact projAgreed_award_route s u aid pid
    | send u cid content mt od => exact projAgreed_send s u cid content mt od pid
    | respondOffer u mid act => exact absurd rfl (hno u mid act)
    | close u cid => exact projAgreed_close s u cid pid
    | chatAwd u cid fr ft => exact projAgreed_chatAward s u cid fr ft pid
    | createChat u aid => exact projAgreed_createChat s u aid pid
  · intro s uid cid content od c hc htr hlock
    exact sendOffer_locked_rejected s uid cid content od c hc htr hlock
  · intro s uid mid act m hm hmt hst
    exact respondToOffer_nonpending s uid mid act m hm hmt hst
  · intro s uid mid m c hm hc h200
    unfold respondToOffer at h200 ⊢
    simp only [hm, hc] at h200 ⊢
    split_ifs at h200 ⊢ <;> try simp_all
    cases hod : m.offerDetails with
    | none => rw [hod] at h200; simp at h200
    | some od =>
      exact pending_zero_of_accept _ _ c.id mid uid "Offer accepted"
        (by rw [lockProjectPrice_messages, promoteApplication_messages])

/-- A copy of `twoChatState` whose only message is offer 6 already accepted. -/
def respondedOfferState : St :=
  { twoChatState with messages :=
      [{ id := 6, chat := 4, sender := 11, content := "offer a",
         messageType := .offer, offerDetails := some ⟨some 5000, some 30, none⟩,
         offerStatus := some .accepted }] }

/-- Witness for C1 (amended): closing chat 4 leaves project 1's agreedPrice
unchanged; an offer with truthy rate 6000 into the locked chat is rejected
with no state change; re-responding to the already-accepted offer 6 returns
400 with no state change; accepting the pending offer 6 leaves chat 4 with
zero pending offers. -/
theorem c1_witness :
    projAgreed (exec twoChatState (Op.close 10 4)) 1 = projAgreed twoChatState 1 ∧
    ((sendMessage lockedChatState 11 4 "hello" MsgType.offer
        (some ⟨some 6000, none, none⟩)).2 = lockedChatState ∧
     (sendMessage lockedChatState 11 4 "hello" MsgType.offer
        (some ⟨some 6000, none, none⟩)).1 ≠ 201) ∧
    respondToOffer respondedOfferState 10 6 "accept" = (400, respondedOfferState) ∧
    pendingOfferCount (respondToOffer twoChatState 10 6 "accept").2
      freelancerChatDoc.id = 0 := by
  refine ⟨c1_amended.1 twoChatState (Op.close 10 4) 1
      (fun u mid act h => Op.noConfusion h), ?_, ?_, ?_⟩
  · exact c1_amended.2.1 lockedChatState 11 4 "hello" ⟨some 6000, none, none⟩
      lockedChatDoc (by decide) (by decide) (by decide)
  · exact c1_amended.2.2.1 respondedOfferState 10 6 "accept"
      { id := 6, chat := 4, sender := 11, content := "offer a",
        messageType := .offer, offerDetails := some ⟨some 5000, some 30, none⟩,
        offerStatus := some .accepted }
      (by decide) (by decide) (by decide)
  · exact c1_amended.2.2.2.1 twoChatState 10 6 offerMsgDoc freelancerChatDoc
      (by decide) (by decide) (by decide)

end WebSphere
